import Mathlib

/-!
# Verification of the vehicle-dynamics / terrain core of `vibe-driving`

Shallow embedding of `src/physics.js` (class `TruckPhysics`) and
`src/terrain.js` (class `Terrain`) over the real numbers, together with
proofs settling the frozen claims about the specification.

Modelling notes, all justified by inspection of the source:
* `THREE.Vector3` is modelled by `Vec3` with componentwise arithmetic;
  `normalize` mirrors THREE's `divideScalar(length || 1)` (the zero vector
  normalizes to itself).
* Numeric fields that the constructor sets once and no method ever writes
  (mass, engineForce, ... ) are modelled as plain constants; the mutable
  instance fields form the `TruckState` record.  `this.keys` and
  `this.previousTerrainHeight` are written only in the constructor and read
  nowhere, so they are omitted.
* `Date.now()` (physics.js line 272) is modelled as an explicit `now`
  argument of `update`; it is only compared with / stored into
  `lastBoundaryCollisionTime` and feeds the (side-effect only) collision
  sound, so making it an input is a faithful purification.
* The per-path terrain sampling loop (physics.js lines 222-248) writes only
  the loop-local variables `lastIntermediateTerrainY` /
  `dampedIntermediateTerrainY`, which are never read after the loop; it has
  no effect on the state or the result and is therefore not modelled.
* Inside `update`, `const terrainRoughness = getTerrainRoughnessAt(...)`
  (line 284), the suspension force locals (lines 303-307) and
  `wheelRotationSpeed` (line 336) are bound but never used; they are noted
  here and not modelled.  The returned `wheelRotationSpeed` field is
  `forwardVelocity * 0.5` (line 345), computed from the pre-step velocity.
-/

open scoped Classical

noncomputable section

namespace VibeDriving

/-- Componentwise 3-vector, standing in for `THREE.Vector3`. -/
structure Vec3 where
  x : ℝ
  y : ℝ
  z : ℝ
deriving DecidableEq

namespace Vec3

/-- `v.add w` — `THREE.Vector3.add`. -/
def add (a b : Vec3) : Vec3 := ⟨a.x + b.x, a.y + b.y, a.z + b.z⟩

/-- `v.sub w` — `THREE.Vector3.sub`. -/
def sub (a b : Vec3) : Vec3 := ⟨a.x - b.x, a.y - b.y, a.z - b.z⟩

/-- `v.multiplyScalar c` — `THREE.Vector3.multiplyScalar`. -/
def smul (a : Vec3) (c : ℝ) : Vec3 := ⟨a.x * c, a.y * c, a.z * c⟩

/-- `v.negate()`. -/
def neg (a : Vec3) : Vec3 := ⟨-a.x, -a.y, -a.z⟩

/-- `v.dot w`. -/
def dot (a b : Vec3) : ℝ := a.x * b.x + a.y * b.y + a.z * b.z

/-- `v.lengthSq()`. -/
def lengthSq (a : Vec3) : ℝ := a.x * a.x + a.y * a.y + a.z * a.z

/-- `v.length()`. -/
def length (a : Vec3) : ℝ := Real.sqrt a.lengthSq

/-- `v.normalize()`; THREE divides by `length || 1`, so the zero vector is
returned unchanged. -/
def normalize (a : Vec3) : Vec3 :=
  if a.length = 0 then a else a.smul (1 / a.length)

/-- The zero vector. -/
def zero : Vec3 := ⟨0, 0, 0⟩

end Vec3

/-! ## Physics constants (physics.js lines 15-74, set in the constructor and
never reassigned, except `maxSpeedKmh` which lives in the state) -/

def mass : ℝ := 1200
def engineForce : ℝ := 28000
def brakingForce : ℝ := 18000
def rollingResistance : ℝ := 0.01
def dragCoefficient : ℝ := 0.05
def wheelBase : ℝ := 5.6
def maxSteeringAngle : ℝ := 0.6
def normalMaxSpeedKmh : ℝ := 120
def lateralFriction : ℝ := 2.5
def lateralFrictionCoefficient : ℝ := 0.9
def lateralFrictionCurve : ℝ := 0.4
def frictionMultiplierAtLowSpeed : ℝ := 1.0
def minSpeedForFullFriction : ℝ := 1.5
def suspensionHeight : ℝ := 0.8
def suspensionStiffness : ℝ := 0.9
def suspensionDamping : ℝ := 0.7
def suspensionTravel : ℝ := 0.8
def nitroMultiplier : ℝ := 2.0
def boundaryCollisionCooldown : ℝ := 500
def maxSafeTerrainChange : ℝ := 4.0

/-- The mutable instance fields of `TruckPhysics`. -/
structure TruckState where
  position : Vec3
  velocity : Vec3
  acceleration : Vec3
  rotation : ℝ
  angularVelocity : ℝ
  maxSpeedKmh : ℝ
  groundContact : Bool
  groundNormal : Vec3
  throttle : ℝ
  brake : ℝ
  steering : ℝ
  targetSteering : ℝ
  targetThrottle : ℝ
  targetBrake : ℝ
  bounce : ℝ
  bounceVelocity : ℝ
  lastBoundaryCollisionTime : ℝ
  nitroActive : Bool

/-- The constructor state (physics.js lines 4-75). -/
def initState : TruckState where
  position := ⟨0, 0.5, 0⟩
  velocity := Vec3.zero
  acceleration := Vec3.zero
  rotation := 0
  angularVelocity := 0
  maxSpeedKmh := 120
  groundContact := true
  groundNormal := ⟨0, 1, 0⟩
  throttle := 0
  brake := 0
  steering := 0
  targetSteering := 0
  targetThrottle := 0
  targetBrake := 0
  bounce := 0
  bounceVelocity := 0
  lastBoundaryCollisionTime := 0
  nitroActive := false

/-- The normalized input contract consumed by `applyUserInput`. -/
structure UserInput where
  forward : Bool
  backward : Bool
  left : Bool
  right : Bool
  brake : Bool
  nitro : Bool

/-- The snapshot object returned by `update` (physics.js lines 342-354). -/
structure PhysicsResult where
  position : Vec3
  rotation : ℝ
  wheelRotationSpeed : ℝ
  steering : ℝ
  steeringAngle : ℝ
  speed : ℝ
  velocity : Vec3
  groundNormal : Vec3
  groundContact : Bool
  bounce : ℝ
  nitroActive : Bool
deriving DecidableEq

/-! ## Stages of `TruckPhysics.update`, in source order -/

/-- Forward basis vector (physics.js line 86). -/
def fwdDir (rotation : ℝ) : Vec3 := ⟨Real.sin rotation, 0, Real.cos rotation⟩

/-- Right basis vector (physics.js line 87). -/
def rightDirOf (rotation : ℝ) : Vec3 := ⟨Real.cos rotation, 0, -Real.sin rotation⟩

/-- Braking contribution to the acceleration (physics.js lines 108-117). -/
def brakingAcceleration (brake : ℝ) (forwardDir velocity : Vec3) : Vec3 :=
  if 0 < brake then
    let velInForwardDir := velocity.dot forwardDir
    if 0.1 < |velInForwardDir| then
      (forwardDir.smul (-(Real.sign velInForwardDir))).smul (brake * brakingForce / mass)
    else Vec3.zero
  else Vec3.zero

/-- Lateral tire-friction contribution to the acceleration
(physics.js lines 119-154). -/
def lateralFrictionAcceleration (groundContact : Bool) (speed lateralSpeed : ℝ)
    (lateralVelocityVector rightDir velocity : Vec3) (deltaTime : ℝ) : Vec3 :=
  if groundContact = true ∧ 0.01 < lateralSpeed then
    let frictionMultiplier :=
      if speed < minSpeedForFullFriction ∧ 0.1 < speed then
        frictionMultiplierAtLowSpeed +
          (1.0 - frictionMultiplierAtLowSpeed) * (speed / minSpeedForFullFriction)
      else 1.0
    let slipAmount := min 1.0 (lateralSpeed / (speed + 0.1))
    let frictionCoeff :=
      lateralFrictionCoefficient * Real.rpow (1.0 - slipAmount) lateralFrictionCurve
    let lateralFrictionMag := lateralFriction * frictionCoeff * frictionMultiplier * mass
    let lateralDir :=
      if 0.01 < lateralSpeed then lateralVelocityVector.normalize.neg
      else (rightDir.smul (Real.sign (velocity.dot rightDir))).neg
    let lateralFrictionAccel := lateralDir.smul (lateralFrictionMag / mass)
    let maxLateralAccel := min (lateralSpeed / deltaTime) lateralFrictionAccel.length
    lateralFrictionAccel.normalize.smul maxLateralAccel
  else Vec3.zero

/-- Quadratic air-drag contribution (physics.js lines 156-162). -/
def dragAcceleration (speedSq : ℝ) (velocity : Vec3) : Vec3 :=
  if 0 < speedSq then
    let dragMag := dragCoefficient * speedSq
    (velocity.normalize.neg).smul (dragMag / mass)
  else Vec3.zero

/-- Rolling-resistance contribution (physics.js lines 164-174). -/
def rollingResistanceAcceleration (groundContact : Bool) (speed speedSq : ℝ)
    (velocity : Vec3) : Vec3 :=
  if groundContact = true ∧ 0.01 < speedSq then
    let speedFactor := min 1.0 (speed / 10)
    let adjustedRollingResistance := rollingResistance * (1.0 + speedFactor * 0.5)
    let rollResistMag := adjustedRollingResistance * mass * 9.8
    (velocity.normalize.neg).smul (rollResistMag / mass)
  else Vec3.zero

/-- The speed-limit rescale (physics.js lines 176-181); `speedKmh` is the
pre-integration speed computed on line 95. -/
def applySpeedLimit (velocity : Vec3) (speedKmh maxSpeedKmh : ℝ) : Vec3 :=
  if maxSpeedKmh < speedKmh then velocity.smul (maxSpeedKmh / speedKmh) else velocity

/-- Steering / angular-velocity update (physics.js lines 183-202): returns the
new angular velocity after the steering impulse and the 0.9 damping factor. -/
def yawAngularVelocity (groundContact : Bool) (steering speed lateralSpeed
    angularVelocity deltaTime : ℝ) : ℝ :=
  let av :=
    if groundContact = true then
      let steeringSpeedFactor := min 1.0 (speed / 1.5)
      let highSpeedFactor := max 0.8 (1.0 - (speed / 50.0) * 0.2)
      let steeringResponse := 3.5 * steeringSpeedFactor * highSpeedFactor
      let lateralGripFactor := max 0.9 (1.0 - lateralSpeed / (speed + 0.1))
      angularVelocity + steering * steeringResponse * lateralGripFactor * deltaTime
    else angularVelocity
  av * 0.9

/-- Half of `groundSize` minus the safety margin (physics.js line 251). -/
def boundaryLimit : ℝ := 1750 - 5

/-- Whether the projected position violates the play-area boundary
(physics.js line 254). -/
def boundaryHit (position movementVector : Vec3) : Prop :=
  boundaryLimit < |(position.add movementVector).x| ∨
    boundaryLimit < |(position.add movementVector).z|

/-- Movement vector after boundary clamping (physics.js lines 252-269). -/
def applyBoundaryMovement (position movementVector : Vec3) : Vec3 :=
  let potentialNewPosition := position.add movementVector
  if boundaryHit position movementVector then
    let clampedX := max (-boundaryLimit) (min boundaryLimit potentialNewPosition.x)
    let clampedZ := max (-boundaryLimit) (min boundaryLimit potentialNewPosition.z)
    (Vec3.mk clampedX potentialNewPosition.y clampedZ).sub position
  else movementVector

/-- Velocity after boundary attenuation (physics.js lines 260-266). -/
def applyBoundaryVelocity (position movementVector velocity : Vec3) : Vec3 :=
  let potentialNewPosition := position.add movementVector
  if boundaryHit position movementVector then
    let v1 := if boundaryLimit < |potentialNewPosition.x| then
        { velocity with x := velocity.x * 0.5 } else velocity
    if boundaryLimit < |potentialNewPosition.z| then
      { v1 with z := v1.z * 0.5 } else v1
  else velocity

/-- New boundary-collision timestamp (physics.js lines 271-276). -/
def applyBoundaryTime (position movementVector : Vec3) (lastTime now : ℝ) : ℝ :=
  if boundaryHit position movementVector then
    if boundaryCollisionCooldown < now - lastTime then now else lastTime
  else lastTime

/-- Smoothed steering for the step (physics.js line 79). -/
def smoothedSteering (s : TruckState) (deltaTime : ℝ) : ℝ :=
  s.steering + (s.targetSteering - s.steering) * min 1 (deltaTime * 2.0)

/-- Smoothed throttle for the step (physics.js line 82). -/
def smoothedThrottle (s : TruckState) (deltaTime : ℝ) : ℝ :=
  s.throttle + (s.targetThrottle - s.throttle) * min 1 (deltaTime * 1.5)

/-- Smoothed brake for the step (physics.js line 83). -/
def smoothedBrake (s : TruckState) (deltaTime : ℝ) : ℝ :=
  s.brake + (s.targetBrake - s.brake) * min 1 (deltaTime * 2.0)

/-- The lateral velocity component relative to the heading
(physics.js lines 98-100). -/
def lateralVelocityVectorOf (s : TruckState) : Vec3 :=
  s.velocity.sub ((fwdDir s.rotation).smul (s.velocity.dot (fwdDir s.rotation)))

/-- The accumulated acceleration of the step: gravity, then engine, braking,
lateral friction, drag and rolling resistance contributions in source order
(physics.js lines 89-174). -/
def stepAccel (s : TruckState) (deltaTime : ℝ) : Vec3 :=
  (((((Vec3.mk 0 (-9.8) 0).add
    ((fwdDir s.rotation).smul (smoothedThrottle s deltaTime * engineForce / mass))).add
    (brakingAcceleration (smoothedBrake s deltaTime) (fwdDir s.rotation) s.velocity)).add
    (lateralFrictionAcceleration s.groundContact (Real.sqrt s.velocity.lengthSq)
      (lateralVelocityVectorOf s).length (lateralVelocityVectorOf s)
      (rightDirOf s.rotation) s.velocity deltaTime)).add
    (dragAcceleration s.velocity.lengthSq s.velocity)).add
    (rollingResistanceAcceleration s.groundContact (Real.sqrt s.velocity.lengthSq)
      s.velocity.lengthSq s.velocity)

/-- Velocity after the speed-limit rescale of the pre-step velocity and the
Euler integration of the accumulated acceleration (physics.js lines 176-181
and 208). -/
def integratedVelocity (s : TruckState) (deltaTime : ℝ) : Vec3 :=
  (applySpeedLimit s.velocity (Real.sqrt s.velocity.lengthSq * 3.6) s.maxSpeedKmh).add
    ((stepAccel s deltaTime).smul deltaTime)

/-- Angular velocity after the steering impulse and damping
(physics.js lines 183-202). -/
def newAngularVelocity (s : TruckState) (deltaTime : ℝ) : ℝ :=
  yawAngularVelocity s.groundContact (smoothedSteering s deltaTime)
    (Real.sqrt s.velocity.lengthSq) (lateralVelocityVectorOf s).length
    s.angularVelocity deltaTime

/-- The movement vector of the step after boundary clamping
(physics.js lines 214, 250-269). -/
def movementVectorOf (s : TruckState) (deltaTime : ℝ) : Vec3 :=
  applyBoundaryMovement s.position ((integratedVelocity s deltaTime).smul deltaTime)

/-- The velocity of the step after boundary attenuation
(physics.js lines 260-266). -/
def boundedVelocity (s : TruckState) (deltaTime : ℝ) : Vec3 :=
  applyBoundaryVelocity s.position ((integratedVelocity s deltaTime).smul deltaTime)
    (integratedVelocity s deltaTime)

/-- `TruckPhysics.update` (physics.js lines 77-355), assembled from the stage
functions above in source order.  `hfn` / `rfn` are the injected
`getTerrainHeightAt` / `getTerrainRoughnessAt` callbacks; `rfn` is queried by
the source (line 284) into an unused local, so it does not appear on the
right-hand side.  Returns the mutated state and the result snapshot. -/
def update (s : TruckState) (deltaTime : ℝ) (hfn _rfn : ℝ → ℝ → ℝ) (now : ℝ) :
    TruckState × PhysicsResult :=
  let angularVelocity := newAngularVelocity s deltaTime
  let rotation := s.rotation + angularVelocity * deltaTime
  let lastBoundaryCollisionTime := applyBoundaryTime s.position
    ((integratedVelocity s deltaTime).smul deltaTime) s.lastBoundaryCollisionTime now
  let position := s.position.add (movementVectorOf s deltaTime)
  -- terrain collision and suspension (lines 282-321)
  let terrainY := hfn position.x position.z
  let targetHeight := terrainY + suspensionHeight + s.bounce * 0.7
  let grounded := position.y < targetHeight
  let impactVelocity := max 0 (-(boundedVelocity s deltaTime).y)
  let bounceVelocity :=
    if grounded ∧ 5 < impactVelocity then impactVelocity * 0.2 else s.bounceVelocity
  let position := if grounded then { position with y := targetHeight } else position
  let velocity := if grounded then
      { boundedVelocity s deltaTime with y := max 0 (boundedVelocity s deltaTime).y }
    else boundedVelocity s deltaTime
  let groundNormal := if grounded then Vec3.mk 0 1 0 else s.groundNormal
  let groundContact : Bool := grounded
  -- cartoon bounce update (lines 323-327)
  let bounce := s.bounce + bounceVelocity * deltaTime
  let bounceVelocity := bounceVelocity - 5 * bounce * deltaTime
  let bounceVelocity := bounceVelocity * 0.95
  let bounce := bounce * 0.95
  -- hard floor clamp (lines 329-333)
  let floorHit := position.y < terrainY + 0.1
  let velocity := if floorHit then { velocity with y := max 0 velocity.y } else velocity
  let position := if floorHit then { position with y := terrainY + 0.1 } else position
  -- result snapshot (lines 342-354)
  (⟨position, velocity, stepAccel s deltaTime, rotation, angularVelocity, s.maxSpeedKmh,
      groundContact, groundNormal, smoothedThrottle s deltaTime, smoothedBrake s deltaTime,
      smoothedSteering s deltaTime, s.targetSteering, s.targetThrottle, s.targetBrake,
      bounce, bounceVelocity, lastBoundaryCollisionTime, s.nitroActive⟩,
    ⟨position, rotation, s.velocity.dot (fwdDir s.rotation) * 0.5,
      smoothedSteering s deltaTime, smoothedSteering s deltaTime * maxSteeringAngle,
      Real.sqrt s.velocity.lengthSq, velocity, groundNormal, groundContact, bounce,
      s.nitroActive⟩)

/-- `TruckPhysics.applyUserInput` (physics.js lines 358-419).  The source
mutates `targetThrottle`, `targetBrake`, `targetSteering`, `nitroActive` and
`maxSpeedKmh` in place; here each field's final value is bound by a scalar
let-chain in the same order as the source's assignments.  Note that all three
branches of the throttle section assign `targetBrake = 0` (lines 376, 382,
390), so that section contributes the unconditional value 0 to the
brake-target chain. -/
def applyUserInput (s : TruckState) (input : UserInput) (deltaTime : ℝ) : TruckState :=
  -- nitro toggle (lines 360-368)
  let nitroActive :=
    if input.nitro = true ∧ s.nitroActive = false then true
    else if input.nitro = false ∧ s.nitroActive = true then false
    else s.nitroActive
  let maxSpeedKmh :=
    if input.nitro = true ∧ s.nitroActive = false then normalMaxSpeedKmh * nitroMultiplier
    else if input.nitro = false ∧ s.nitroActive = true then normalMaxSpeedKmh
    else s.maxSpeedKmh
  -- throttle / brake targets (lines 371-391)
  let targetThrottle :=
    if input.forward = true then min 1.0 (s.targetThrottle + 0.7 * deltaTime)
    else if input.backward = true then max (-0.4) (s.targetThrottle - 0.5 * deltaTime)
    else if 0.05 < |s.targetThrottle| then s.targetThrottle * 0.92
    else 0
  let targetBrake : ℝ := 0
  -- braking takes priority over throttle (lines 394-400)
  let targetBrake :=
    if input.brake = true then min 1.0 (targetBrake + 0.8 * deltaTime) else targetBrake
  let targetThrottle := if input.brake = true then 0 else targetThrottle
  -- steering: decay toward center, then progressive input (lines 404-418)
  let targetSteering := s.targetSteering * 0.95
  let targetSteering :=
    if input.left = true then min (targetSteering + 2.5 * deltaTime) 1.0 else targetSteering
  let targetSteering :=
    if input.right = true then max (targetSteering - 2.5 * deltaTime) (-1.0) else targetSteering
  { s with
    nitroActive := nitroActive
    maxSpeedKmh := maxSpeedKmh
    targetThrottle := targetThrottle
    targetBrake := targetBrake
    targetSteering := targetSteering }

/-- `TruckPhysics.reset` (physics.js lines 422-449).  The source leaves
`groundContact`, `groundNormal` and `lastBoundaryCollisionTime` untouched. -/
def reset (s : TruckState) : TruckState :=
  { s with
    position := ⟨0, suspensionHeight, 0⟩
    velocity := ⟨0, 0, 0⟩
    acceleration := ⟨0, 0, 0⟩
    rotation := 0
    angularVelocity := 0
    throttle := 0
    brake := 0
    steering := 0
    targetThrottle := 0
    targetBrake := 0
    targetSteering := 0
    bounce := 0
    bounceVelocity := 0
    nitroActive := false
    maxSpeedKmh := normalMaxSpeedKmh }

/-! ## Terrain (`src/terrain.js`) -/

def groundSize : ℝ := 2000
def groundSegments : ℤ := 200

/-- Quintic fade curve (terrain.js lines 113-115). -/
def fade (t : ℝ) : ℝ := t * t * t * (t * (t * 6 - 15) + 10)

/-- Linear interpolation (terrain.js lines 117-119). -/
def lerp (a b t : ℝ) : ℝ := a + t * (b - a)

/-- Gradient selection (terrain.js lines 121-125).  JS bitwise masks on the
non-negative hash translate to `emod`: `h & 15 = h.emod 16`, `h & 7 = h.emod 8`,
and for `h ∈ [0,16)` the tests `h & 8` / `h & 4` are `8 ≤ h` / `4 ≤ h.emod 8`. -/
def grad (hash : ℤ) (x y : ℝ) : ℝ :=
  let h := hash.emod 16
  let grad2 : ℝ := 1 + ((h.emod 8 : ℤ) : ℝ)
  (if 8 ≤ h then -grad2 else grad2) * x + (if 4 ≤ h.emod 8 then -grad2 else grad2) * y

/-- `Terrain.simplifiedNoise` (terrain.js lines 85-111).  `Math.floor(x) & 255`
is `⌊x⌋.emod 256` (JS bitwise AND on the int32 value agrees with the
non-negative residue for the magnitudes in play). -/
def simplifiedNoise (x y : ℝ) : ℝ :=
  let X : ℤ := (⌊x⌋ : ℤ).emod 256
  let Y : ℤ := (⌊y⌋ : ℤ).emod 256
  let xf := x - ⌊x⌋
  let yf := y - ⌊y⌋
  let u := fade xf
  let v := fade yf
  let A := (X + Y * 57).emod 256
  let B := (X + 1 + Y * 57).emod 256
  let C := (X + (Y + 1) * 57).emod 256
  let D := (X + 1 + (Y + 1) * 57).emod 256
  lerp (lerp (grad A xf yf) (grad B (xf - 1) yf) u)
       (lerp (grad C xf (yf - 1)) (grad D (xf - 1) (yf - 1)) u) v

/-- `Terrain.getHeightAt` (terrain.js lines 127-158).  `heightData` is the
cached sample grid, indexed flat as `iz * width + ix` exactly as in the
source (the `!this.heightData` null-guard is outside the model: the grid is
built once at construction).  `width = height = groundSegments + 1`. -/
def getHeightAt (heightData : ℤ → ℝ) (x z : ℝ) : ℝ :=
  let width : ℤ := groundSegments + 1
  let ix : ℤ := ⌊(x + groundSize / 2) / groundSize * ((width : ℝ))⌋
  let iz : ℤ := ⌊(z + groundSize / 2) / groundSize * ((width : ℝ))⌋
  if ix < 0 ∨ width - 1 ≤ ix ∨ iz < 0 ∨ width - 1 ≤ iz then 0
  else
    let h00 := heightData (iz * width + ix)
    let h10 := heightData (iz * width + (ix + 1))
    let h01 := heightData ((iz + 1) * width + ix)
    let h11 := heightData ((iz + 1) * width + (ix + 1))
    let percentX := (x + groundSize / 2) / groundSize * ((width : ℝ)) - (ix : ℝ)
    let percentZ := (z + groundSize / 2) / groundSize * ((width : ℝ)) - (iz : ℝ)
    let h0 := h00 * (1 - percentX) + h10 * percentX
    let h1 := h01 * (1 - percentX) + h11 * percentX
    h0 * (1 - percentZ) + h1 * percentZ

/-- `Terrain.getRoughnessAt` (terrain.js lines 160-172). -/
def getRoughnessAt (heightData : ℤ → ℝ) (x z : ℝ) : ℝ :=
  let spacing : ℝ := 2
  let h1 := getHeightAt heightData (x - spacing) (z - spacing)
  let h2 := getHeightAt heightData (x + spacing) (z - spacing)
  let h3 := getHeightAt heightData (x - spacing) (z + spacing)
  let h4 := getHeightAt heightData (x + spacing) (z + spacing)
  max (max h1 h2) (max h3 h4) - min (min h1 h2) (min h3 h4)

/-! ## Scenario definitions used by the claims -/

/-- Everywhere-flat terrain callback (also used as a roughness callback:
`update` binds the roughness query into an unused local). -/
def hFlat : ℝ → ℝ → ℝ := fun _ _ => 0

/-- A plateau terrain callback used to place the truck high above the flat
ground in the falling scenario. -/
def hLift : ℝ → ℝ → ℝ := fun _ _ => 10000

/-- The time steps the game loop can feed to the physics:
`deltaTime = Math.min(0.1, elapsed)` with a positive elapsed time
(game.js line 234). -/
def ValidDt (dt : ℝ) : Prop := 0 < dt ∧ dt ≤ 0.1

/-- States reachable from the constructor state through any interleaving of
`applyUserInput` and `update`, with game-loop-valid time steps, arbitrary
inputs, arbitrary injected terrain callbacks and arbitrary wall-clock values. -/
inductive Reachable : TruckState → Prop
  | init : Reachable initState
  | input (s : TruckState) (inp : UserInput) (dt : ℝ) :
      Reachable s → ValidDt dt → Reachable (applyUserInput s inp dt)
  | step (s : TruckState) (dt : ℝ) (hfn rfn : ℝ → ℝ → ℝ) (now : ℝ) :
      Reachable s → ValidDt dt → Reachable (update s dt hfn rfn now).1

/-- The falling scenario: one step on the plateau lifts the spawned truck to
ride height on top of it, then every further step runs over flat ground far
below, so the truck free-falls.  All steps use the maximal frame time 0.1 s
and no user input. -/
def fallState : ℕ → TruckState
  | 0 => (update initState 0.1 hLift hFlat 0).1
  | k + 1 => (update (fallState k) 0.1 hFlat hFlat 0).1

/-- Holding only the left-steer key. -/
def leftInput : UserInput :=
  { forward := false, backward := false, left := true, right := false,
    brake := false, nitro := false }

/-- Frame loop holding only left steer: each frame applies the input and then
steps the physics, as the game loop does. -/
def runLeft (hfn rfn : ℝ → ℝ → ℝ) (now : ℝ) : TruckState → List ℝ → TruckState
  | s, [] => s
  | s, dt :: dts =>
      runLeft hfn rfn now (update (applyUserInput s leftInput dt) dt hfn rfn now).1 dts

/-- One frame of the control flow `applyInput` → `step`, with its wall-clock
reading. -/
structure FrameStep where
  input : UserInput
  dt : ℝ
  now : ℝ

/-- Per-frame control flow of the game loop: apply the frame input, then step
the physics, collecting the returned result snapshots. -/
def runFrames (hfn rfn : ℝ → ℝ → ℝ) : TruckState → List FrameStep → List PhysicsResult
  | _, [] => []
  | s, f :: fs =>
      let s1 := applyUserInput s f.input f.dt
      (update s1 f.dt hfn rfn f.now).2 :: runFrames hfn rfn (update s1 f.dt hfn rfn f.now).1 fs

/-- A sequence of `applyUserInput` calls. -/
def runInputs : TruckState → List (UserInput × ℝ) → TruckState
  | s, [] => s
  | s, p :: ps => runInputs (applyUserInput s p.1 p.2) ps

/-- Equality of all `TruckState` fields that feed the physics and the result
snapshot — everything except the sound-cooldown timestamp
`lastBoundaryCollisionTime`. -/
def PhysEq (a b : TruckState) : Prop :=
  a.position = b.position ∧ a.velocity = b.velocity ∧ a.acceleration = b.acceleration ∧
  a.rotation = b.rotation ∧ a.angularVelocity = b.angularVelocity ∧
  a.maxSpeedKmh = b.maxSpeedKmh ∧ a.groundContact = b.groundContact ∧
  a.groundNormal = b.groundNormal ∧ a.throttle = b.throttle ∧ a.brake = b.brake ∧
  a.steering = b.steering ∧ a.targetSteering = b.targetSteering ∧
  a.targetThrottle = b.targetThrottle ∧ a.targetBrake = b.targetBrake ∧
  a.bounce = b.bounce ∧ a.bounceVelocity = b.bounceVelocity ∧
  a.nitroActive = b.nitroActive

/-- Straight-line state rolling forward at 0.11 m/s on flat ground with the
brake fully applied and released throttle: the concrete start state of the
braking counterexample. -/
def brakeTestState : TruckState :=
  { initState with
    position := ⟨0, 0.8, 0⟩
    velocity := ⟨0, 0, 0.11⟩
    brake := 1
    targetBrake := 1 }

namespace Vec3

@[simp] theorem add_x (a b : Vec3) : (a.add b).x = a.x + b.x := rfl
@[simp] theorem add_y (a b : Vec3) : (a.add b).y = a.y + b.y := rfl
@[simp] theorem add_z (a b : Vec3) : (a.add b).z = a.z + b.z := rfl
@[simp] theorem sub_x (a b : Vec3) : (a.sub b).x = a.x - b.x := rfl
@[simp] theorem sub_y (a b : Vec3) : (a.sub b).y = a.y - b.y := rfl
@[simp] theorem sub_z (a b : Vec3) : (a.sub b).z = a.z - b.z := rfl
@[simp] theorem smul_x (a : Vec3) (c : ℝ) : (a.smul c).x = a.x * c := rfl
@[simp] theorem smul_y (a : Vec3) (c : ℝ) : (a.smul c).y = a.y * c := rfl
@[simp] theorem smul_z (a : Vec3) (c : ℝ) : (a.smul c).z = a.z * c := rfl
@[simp] theorem neg_x (a : Vec3) : a.neg.x = -a.x := rfl
@[simp] theorem neg_y (a : Vec3) : a.neg.y = -a.y := rfl
@[simp] theorem neg_z (a : Vec3) : a.neg.z = -a.z := rfl
@[simp] theorem zero_x : (zero).x = 0 := rfl
@[simp] theorem zero_y : (zero).y = 0 := rfl
@[simp] theorem zero_z : (zero).z = 0 := rfl
@[simp] theorem mk_x (a b c : ℝ) : (Vec3.mk a b c).x = a := rfl
@[simp] theorem mk_y (a b c : ℝ) : (Vec3.mk a b c).y = b := rfl
@[simp] theorem mk_z (a b c : ℝ) : (Vec3.mk a b c).z = c := rfl

theorem dot_def (a b : Vec3) : a.dot b = a.x * b.x + a.y * b.y + a.z * b.z := rfl

theorem lengthSq_def (a : Vec3) : a.lengthSq = a.x * a.x + a.y * a.y + a.z * a.z := rfl

theorem ext_iff (a b : Vec3) : a = b ↔ a.x = b.x ∧ a.y = b.y ∧ a.z = b.z := by
  constructor
  · rintro rfl; exact ⟨rfl, rfl, rfl⟩
  · rintro ⟨h1, h2, h3⟩; cases a; cases b; simp_all

end Vec3

/-! ## Helper lemmas -/

theorem boundaryLimit_pos : (0 : ℝ) < boundaryLimit := by norm_num [boundaryLimit]

theorem clamp_abs_le (l v p : ℝ) (hl : 0 ≤ l) :
    |p + (max (-l) (min l v) - p)| ≤ l := by
  have h1 : p + (max (-l) (min l v) - p) = max (-l) (min l v) := by ring
  rw [h1, abs_le]
  exact ⟨le_max_left _ _, max_le (by linarith) (min_le_left _ _)⟩

/-- After boundary handling, the realized x coordinate stays inside
`[-boundaryLimit, boundaryLimit]`. -/
theorem abm_x_contained (pos mv : Vec3) :
    |pos.x + (applyBoundaryMovement pos mv).x| ≤ boundaryLimit := by
  by_cases h : boundaryHit pos mv
  · simp only [applyBoundaryMovement, if_pos h, Vec3.sub_x, Vec3.mk_x, Vec3.add_x]
    exact clamp_abs_le _ _ _ (le_of_lt boundaryLimit_pos)
  · simp only [applyBoundaryMovement, if_neg h]
    unfold boundaryHit at h
    push_neg at h
    simpa [Vec3.add_x] using h.1

/-- After boundary handling, the realized z coordinate stays inside
`[-boundaryLimit, boundaryLimit]`. -/
theorem abm_z_contained (pos mv : Vec3) :
    |pos.z + (applyBoundaryMovement pos mv).z| ≤ boundaryLimit := by
  by_cases h : boundaryHit pos mv
  · simp only [applyBoundaryMovement, if_pos h, Vec3.sub_z, Vec3.mk_z, Vec3.add_z]
    exact clamp_abs_le _ _ _ (le_of_lt boundaryLimit_pos)
  · simp only [applyBoundaryMovement, if_neg h]
    unfold boundaryHit at h
    push_neg at h
    simpa [Vec3.add_z] using h.2

/-- When the projected position overshoots the positive x boundary, the
realized position lands exactly on the boundary. -/
theorem abm_x_saturates (pos mv : Vec3)
    (h : boundaryLimit < pos.x + mv.x) :
    pos.x + (applyBoundaryMovement pos mv).x = boundaryLimit := by
  have hl : (0 : ℝ) < boundaryLimit := boundaryLimit_pos
  have hhit : boundaryHit pos mv := by
    left
    simp only [Vec3.add_x]
    rw [lt_abs]
    left
    exact h
  simp only [applyBoundaryMovement, if_pos hhit, Vec3.sub_x, Vec3.mk_x, Vec3.add_x]
  have h1 : min boundaryLimit (pos.x + mv.x) = boundaryLimit := min_eq_left (le_of_lt h)
  rw [h1, max_eq_right (by linarith)]
  ring

/-! ## C4: boundary containment -/

/-- **C4.** For every state, time step, input and terrain callbacks, after
`update` the horizontal position satisfies `|x| ≤ boundaryLimit` and
`|z| ≤ boundaryLimit` (with `boundaryLimit = 1750 - 5`), so in particular any
run starting inside the play area stays inside it after every step; and when
the projected movement overshoots the positive x boundary the realized
position saturates at exactly `boundaryLimit`. -/
theorem claim_c4_boundary_containment :
    (∀ (s : TruckState) (dt : ℝ) (hfn rfn : ℝ → ℝ → ℝ) (now : ℝ),
        |(update s dt hfn rfn now).1.position.x| ≤ boundaryLimit ∧
        |(update s dt hfn rfn now).1.position.z| ≤ boundaryLimit) ∧
    (∀ pos mv : Vec3, boundaryLimit < (pos.add mv).x →
        (pos.add (applyBoundaryMovement pos mv)).x = boundaryLimit) := by
  constructor
  · intro s dt hfn rfn now
    constructor
    · simp only [update]
      split_ifs <;> simp only [Vec3.mk_x, Vec3.add_x] <;> exact abm_x_contained _ _
    · simp only [update]
      split_ifs <;> simp only [Vec3.mk_z, Vec3.add_z] <;> exact abm_z_contained _ _
  · intro pos mv h
    simp only [Vec3.add_x] at h ⊢
    exact abm_x_saturates pos mv h

/-- Witness for C4: a projected position 100 units past the positive x
boundary is clamped to exactly the boundary. -/
theorem claim_c4_boundary_containment_witness :
    boundaryLimit < ((⟨1745, 0, 0⟩ : Vec3).add ⟨100, 0, 0⟩).x ∧
    ((⟨1745, 0, 0⟩ : Vec3).add
        (applyBoundaryMovement ⟨1745, 0, 0⟩ ⟨100, 0, 0⟩)).x = boundaryLimit :=
  ⟨by norm_num [boundaryLimit, Vec3.add_x, Vec3.mk_x],
   claim_c4_boundary_containment.2 _ _
     (by norm_num [boundaryLimit, Vec3.add_x, Vec3.mk_x])⟩

/-! ## C5: no tunneling below the terrain -/

/-- **C5.** After every `update`, for any time step, state and terrain
callbacks, the vehicle sits at least the 0.1 ground clearance above the
terrain height sampled at its own horizontal position: the final hard floor
clamp prevents tunneling. -/
theorem claim_c5_no_tunneling (s : TruckState) (dt : ℝ) (hfn rfn : ℝ → ℝ → ℝ) (now : ℝ) :
    hfn ((update s dt hfn rfn now).1.position.x) ((update s dt hfn rfn now).1.position.z)
        ≤ (update s dt hfn rfn now).1.position.y ∧
    hfn ((update s dt hfn rfn now).1.position.x) ((update s dt hfn rfn now).1.position.z)
        + 0.1 ≤ (update s dt hfn rfn now).1.position.y := by
  simp only [update]
  split_ifs with h1 h2 h3 <;>
    simp only [Vec3.mk_x, Vec3.mk_y, Vec3.mk_z] at * <;>
    constructor <;> linarith

/-! ## C9: reset -/

/-- **C9 (amended).** `reset` restores position to the spawn point at ride
height, zeroes velocity, acceleration, rotation, angular velocity, bounce and
all current and target control values, and clears nitro restoring
`maxSpeedKmh`; it leaves `groundContact`, `groundNormal` and the
boundary-collision timestamp unchanged (and, being a field-update on the same
record, it models the in-place, non-reallocating reset). -/
theorem claim_c9_reset_amended (s : TruckState) :
    (reset s).position = ⟨0, suspensionHeight, 0⟩ ∧
    (reset s).velocity = ⟨0, 0, 0⟩ ∧
    (reset s).acceleration = ⟨0, 0, 0⟩ ∧
    (reset s).rotation = 0 ∧
    (reset s).angularVelocity = 0 ∧
    (reset s).throttle = 0 ∧
    (reset s).brake = 0 ∧
    (reset s).steering = 0 ∧
    (reset s).targetThrottle = 0 ∧
    (reset s).targetBrake = 0 ∧
    (reset s).targetSteering = 0 ∧
    (reset s).bounce = 0 ∧
    (reset s).bounceVelocity = 0 ∧
    (reset s).nitroActive = false ∧
    (reset s).maxSpeedKmh = normalMaxSpeedKmh ∧
    (reset s).groundContact = s.groundContact ∧
    (reset s).groundNormal = s.groundNormal ∧
    (reset s).lastBoundaryCollisionTime = s.lastBoundaryCollisionTime := by
  refine ⟨rfl, rfl, rfl, rfl, rfl, rfl, rfl, rfl, rfl, rfl, rfl, rfl, rfl, rfl, rfl,
    rfl, rfl, rfl⟩

/-! ## C10: control-target bounds under applyUserInput -/

/-- The control-target bounds are preserved by a single `applyUserInput` call
with non-negative time step. -/
theorem applyUserInput_target_bounds (s : TruckState) (i : UserInput) (dt : ℝ)
    (hdt : 0 ≤ dt)
    (hs1 : -1 ≤ s.targetSteering) (hs2 : s.targetSteering ≤ 1)
    (hb1 : 0 ≤ s.targetBrake) (hb2 : s.targetBrake ≤ 1)
    (ht1 : -0.4 ≤ s.targetThrottle) (ht2 : s.targetThrottle ≤ 1) :
    (-1 ≤ (applyUserInput s i dt).targetSteering ∧
      (applyUserInput s i dt).targetSteering ≤ 1) ∧
    (0 ≤ (applyUserInput s i dt).targetBrake ∧
      (applyUserInput s i dt).targetBrake ≤ 1) ∧
    (-0.4 ≤ (applyUserInput s i dt).targetThrottle ∧
      (applyUserInput s i dt).targetThrottle ≤ 1) := by
  refine ⟨?_, ?_, ?_⟩
  · simp only [applyUserInput]
    split_ifs with h1 h2 h3
    · constructor
      · exact le_trans (by norm_num) (le_max_right _ _)
      · have hm : min (s.targetSteering * 0.95 + 2.5 * dt) 1.0 ≤ 1.0 := min_le_right _ _
        exact max_le (by linarith) (by norm_num)
    · constructor
      · exact le_trans (by norm_num) (le_max_right _ _)
      · exact max_le (by linarith) (by norm_num)
    · constructor
      · exact le_min (by linarith) (by norm_num)
      · exact le_trans (min_le_right _ _) (by norm_num)
    · constructor <;> linarith
  · simp only [applyUserInput]
    split_ifs with h1
    · constructor
      · exact le_min (by norm_num) (by linarith)
      · exact le_trans (min_le_left _ _) (by norm_num)
    · constructor <;> norm_num
  · simp only [applyUserInput]
    split_ifs with h1 h2 h3 h4
    · constructor <;> norm_num
    · constructor
      · exact le_min (by norm_num) (by linarith)
      · exact le_trans (min_le_left _ _) (by norm_num)
    · constructor
      · exact le_max_left _ _
      · exact max_le (by norm_num) (by linarith)
    · constructor <;> linarith
    · constructor <;> norm_num

/-- Control-target bounds hold along every `applyUserInput` trace from a state
satisfying them. -/
theorem runInputs_target_bounds (l : List (UserInput × ℝ)) (s : TruckState)
    (hl : ∀ p ∈ l, 0 ≤ p.2)
    (hs1 : -1 ≤ s.targetSteering) (hs2 : s.targetSteering ≤ 1)
    (hb1 : 0 ≤ s.targetBrake) (hb2 : s.targetBrake ≤ 1)
    (ht1 : -0.4 ≤ s.targetThrottle) (ht2 : s.targetThrottle ≤ 1) :
    (-1 ≤ (runInputs s l).targetSteering ∧ (runInputs s l).targetSteering ≤ 1) ∧
    (0 ≤ (runInputs s l).targetBrake ∧ (runInputs s l).targetBrake ≤ 1) ∧
    (-0.4 ≤ (runInputs s l).targetThrottle ∧ (runInputs s l).targetThrottle ≤ 1) := by
  induction l generalizing s with
  | nil => exact ⟨⟨hs1, hs2⟩, ⟨hb1, hb2⟩, ⟨ht1, ht2⟩⟩
  | cons p ps ih =>
      have hp : 0 ≤ p.2 := hl p (List.mem_cons_self p ps)
      have hstep := applyUserInput_target_bounds s p.1 p.2 hp hs1 hs2 hb1 hb2 ht1 ht2
      exact ih (applyUserInput s p.1 p.2) (fun q hq => hl q (List.mem_cons_of_mem p hq))
        hstep.1.1 hstep.1.2 hstep.2.1.1 hstep.2.1.2 hstep.2.2.1 hstep.2.2.2

/-- **C10.** For every sequence of `applyUserInput` calls with arbitrary
boolean inputs and non-negative time steps, starting from the constructor
defaults, the control targets stay bounded: `targetSteering ∈ [-1, 1]`,
`targetBrake ∈ [0, 1]` and `targetThrottle ∈ [-0.4, 1]` — reverse throttle is
floored at -0.4, not -1. -/
theorem claim_c10_target_bounds (l : List (UserInput × ℝ)) (hl : ∀ p ∈ l, 0 ≤ p.2) :
    (-1 ≤ (runInputs initState l).targetSteering ∧
      (runInputs initState l).targetSteering ≤ 1) ∧
    (0 ≤ (runInputs initState l).targetBrake ∧
      (runInputs initState l).targetBrake ≤ 1) ∧
    (-0.4 ≤ (runInputs initState l).targetThrottle ∧
      (runInputs initState l).targetThrottle ≤ 1) := by
  have h0 : initState.targetSteering = 0 := rfl
  have h1 : initState.targetBrake = 0 := rfl
  have h2 : initState.targetThrottle = 0 := rfl
  exact runInputs_target_bounds l initState hl (by rw [h0]; norm_num)
    (by rw [h0]; norm_num) (by rw [h1]) (by rw [h1]; norm_num)
    (by rw [h2]; norm_num) (by rw [h2]; norm_num)

/-- Witness for C10: a one-frame trace holding left steer at dt = 1/60. -/
theorem claim_c10_target_bounds_witness :
    (∀ p ∈ [(leftInput, (1 : ℝ)/60)], 0 ≤ p.2) ∧
    (-0.4 ≤ (runInputs initState [(leftInput, (1 : ℝ)/60)]).targetThrottle ∧
      (runInputs initState [(leftInput, (1 : ℝ)/60)]).targetThrottle ≤ 1) :=
  ⟨by intro p hp; simp only [List.mem_singleton] at hp; rw [hp]; norm_num,
   (claim_c10_target_bounds [(leftInput, (1 : ℝ)/60)]
      (by intro p hp; simp only [List.mem_singleton] at hp; rw [hp]; norm_num)).2.2⟩

namespace Vec3

theorem lengthSq_nonneg (v : Vec3) : 0 ≤ v.lengthSq := by
  unfold lengthSq
  have hx := mul_self_nonneg v.x
  have hy := mul_self_nonneg v.y
  have hz := mul_self_nonneg v.z
  linarith

theorem length_nonneg (v : Vec3) : 0 ≤ v.length := Real.sqrt_nonneg _

theorem length_sq (v : Vec3) : v.length ^ 2 = v.lengthSq :=
  Real.sq_sqrt (lengthSq_nonneg v)

theorem dot_self_eq (v : Vec3) : v.dot v = v.lengthSq := rfl

theorem smul_lengthSq (v : Vec3) (a : ℝ) : (v.smul a).lengthSq = a ^ 2 * v.lengthSq := by
  simp only [lengthSq, smul]; ring

theorem length_smul (v : Vec3) (a : ℝ) : (v.smul a).length = |a| * v.length := by
  unfold length
  rw [smul_lengthSq, Real.sqrt_mul (sq_nonneg a), Real.sqrt_sq_eq_abs]

theorem length_neg (v : Vec3) : v.neg.length = v.length := by
  unfold length
  congr 1
  simp only [lengthSq, neg]; ring

theorem normalize_length (v : Vec3) (h : v.length ≠ 0) : v.normalize.length = 1 := by
  have h0 : 0 < v.length := lt_of_le_of_ne (length_nonneg v) (Ne.symm h)
  unfold normalize
  rw [if_neg h, length_smul, abs_of_nonneg (by positivity : (0 : ℝ) ≤ 1 / v.length)]
  field_simp

theorem normalize_length_le_one (v : Vec3) : v.normalize.length ≤ 1 := by
  by_cases h : v.length = 0
  · unfold normalize
    rw [if_pos h, h]
    norm_num
  · rw [normalize_length v h]

theorem add_dot (a b c : Vec3) : (a.add b).dot c = a.dot c + b.dot c := by
  simp only [dot, add]; ring

theorem smul_dot (a : Vec3) (r : ℝ) (b : Vec3) : (a.smul r).dot b = r * a.dot b := by
  simp only [dot, smul]; ring

theorem neg_dot (a b : Vec3) : a.neg.dot b = -(a.dot b) := by
  simp only [dot, neg]; ring

theorem normalize_dot_self (v : Vec3) (h : v.length ≠ 0) :
    v.normalize.dot v = v.length := by
  unfold normalize
  rw [if_neg h, smul_dot, dot_self_eq, ← length_sq]
  field_simp
  ring

end Vec3

/-! ## C3: lateral friction is capped and cannot reverse the lateral velocity -/

/-- **C3.** Whenever the lateral-friction branch is taken (ground contact and
lateral speed above the 0.01 epsilon) with a positive time step, the friction
acceleration's magnitude times `dt` never exceeds the current lateral speed,
and the lateral velocity after adding just the friction contribution for one
step still has non-negative inner product with the original lateral velocity:
friction alone cannot reverse the lateral direction within a step. -/
theorem claim_c3_lateral_friction_cap (gc : Bool) (speed dt : ℝ)
    (latVec rightDir velocity : Vec3)
    (hgc : gc = true) (hdt : 0 < dt) (hls : 0.01 < latVec.length) :
    (lateralFrictionAcceleration gc speed latVec.length latVec rightDir
        velocity dt).length * dt ≤ latVec.length ∧
    0 ≤ (latVec.add ((lateralFrictionAcceleration gc speed latVec.length latVec rightDir
        velocity dt).smul dt)).dot latVec := by
  have hL : 0 < latVec.length := lt_trans (by norm_num) hls
  have hLne : latVec.length ≠ 0 := ne_of_gt hL
  have hcond : gc = true ∧ 0.01 < latVec.length := ⟨hgc, hls⟩
  rw [lateralFrictionAcceleration]
  rw [if_pos hcond]
  simp only [if_pos hls]
  set m := (if speed < minSpeedForFullFriction ∧ 0.1 < speed then
      frictionMultiplierAtLowSpeed +
        (1.0 - frictionMultiplierAtLowSpeed) * (speed / minSpeedForFullFriction)
    else 1.0) with hm
  have hm0 : 0 ≤ m := by
    rw [hm]
    split_ifs
    · norm_num [frictionMultiplierAtLowSpeed]
    · norm_num
  set slip := min 1.0 (latVec.length / (speed + 0.1)) with hslip
  have hcoef : 0 ≤ lateralFrictionCoefficient * Real.rpow (1.0 - slip) lateralFrictionCurve := by
    have h1 : (0 : ℝ) ≤ 1.0 - slip := by
      have := min_le_left 1.0 (latVec.length / (speed + 0.1))
      simp only [hslip]
      linarith [min_le_left (1.0 : ℝ) (latVec.length / (speed + 0.1))]
    exact mul_nonneg (by norm_num [lateralFrictionCoefficient]) (Real.rpow_nonneg h1 _)
  set c := lateralFriction * (lateralFrictionCoefficient *
      Real.rpow (1.0 - slip) lateralFrictionCurve) * m * mass / mass with hc
  have hc0 : 0 ≤ c := by
    rw [hc]
    apply div_nonneg _ (by norm_num [mass])
    apply mul_nonneg (mul_nonneg (mul_nonneg (by norm_num [lateralFriction]) hcoef) hm0)
    norm_num [mass]
  set A := (latVec.normalize.neg).smul c with hA
  have hAlen : A.length = c := by
    rw [hA, Vec3.length_smul, Vec3.length_neg, Vec3.normalize_length latVec hLne,
      abs_of_nonneg hc0]
    ring
  set maxLA := min (latVec.length / dt) A.length with hmax
  have hmax0 : 0 ≤ maxLA :=
    le_min (div_nonneg (Vec3.length_nonneg latVec) (le_of_lt hdt)) (Vec3.length_nonneg A)
  have hmaxle : maxLA ≤ latVec.length / dt := min_le_left _ _
  have hmaxdt : maxLA * dt ≤ latVec.length := by
    have := mul_le_mul_of_nonneg_right hmaxle (le_of_lt hdt)
    calc maxLA * dt ≤ latVec.length / dt * dt := this
    _ = latVec.length := by field_simp
  constructor
  · rw [Vec3.length_smul, abs_of_nonneg hmax0]
    have h1 : A.normalize.length ≤ 1 := Vec3.normalize_length_le_one A
    have h2 : A.normalize.length * maxLA ≤ maxLA := by nlinarith
    nlinarith [Vec3.length_nonneg A.normalize]
  · rw [Vec3.add_dot, Vec3.smul_dot, Vec3.smul_dot, Vec3.dot_self_eq, ← Vec3.length_sq]
    have hdotA : A.normalize.dot latVec = -(maxLA / maxLA) * 0 + A.normalize.dot latVec := by
      ring
    by_cases hA0 : A.length = 0
    · have : A.normalize.dot latVec = A.dot latVec := by
        unfold Vec3.normalize
        rw [if_pos hA0]
      rw [this, hA, Vec3.smul_dot, Vec3.neg_dot, Vec3.normalize_dot_self latVec hLne]
      have hceq : c = 0 := by rw [← hAlen, hA0]
      rw [hceq]
      have := Vec3.length_sq latVec
      nlinarith [hL]
    · have hstep : A.normalize.dot latVec = -latVec.length := by
        unfold Vec3.normalize
        rw [if_neg hA0, Vec3.smul_dot, hA, Vec3.smul_dot, Vec3.neg_dot,
          Vec3.normalize_dot_self latVec hLne, hAlen]
        have hcne : c ≠ 0 := by rw [← hAlen]; exact hA0
        field_simp
        ring
      rw [hstep]
      have h3 : maxLA * dt ≤ latVec.length := by
        calc maxLA * dt = maxLA * dt := rfl
        _ ≤ latVec.length := hmaxdt
      nlinarith [hL]

/-- Witness for C3 at a concrete purely-lateral configuration. -/
theorem claim_c3_lateral_friction_cap_witness :
    (lateralFrictionAcceleration true 0 (Vec3.length ⟨1, 0, 0⟩) ⟨1, 0, 0⟩ Vec3.zero
        Vec3.zero 1).length * 1 ≤ Vec3.length ⟨1, 0, 0⟩ ∧
    0 ≤ ((⟨1, 0, 0⟩ : Vec3).add ((lateralFrictionAcceleration true 0
        (Vec3.length ⟨1, 0, 0⟩) ⟨1, 0, 0⟩ Vec3.zero Vec3.zero 1).smul 1)).dot ⟨1, 0, 0⟩ :=
  claim_c3_lateral_friction_cap true 0 1 ⟨1, 0, 0⟩ Vec3.zero Vec3.zero rfl (by norm_num)
    (by
      have h : Vec3.length ⟨1, 0, 0⟩ = 1 := by
        unfold Vec3.length Vec3.lengthSq
        norm_num
      rw [h]; norm_num)

/-! ## C6: height queries, out-of-domain and bilinear interpolation -/

/-- **C6.** For every cached height grid and world coordinates: if the mapped
grid index on either axis falls before 0 or past `resolution - 1`
(`resolution = groundSegments = 200`), `getHeightAt` returns exactly 0;
otherwise it returns the bilinear interpolation of the four surrounding cached
samples. -/
theorem claim_c6_height_query (hd : ℤ → ℝ) (x z : ℝ) :
    (⌊(x + groundSize / 2) / groundSize * ((groundSegments + 1 : ℤ) : ℝ)⌋ < 0 ∨
        groundSegments ≤ ⌊(x + groundSize / 2) / groundSize * ((groundSegments + 1 : ℤ) : ℝ)⌋ ∨
        ⌊(z + groundSize / 2) / groundSize * ((groundSegments + 1 : ℤ) : ℝ)⌋ < 0 ∨
        groundSegments ≤ ⌊(z + groundSize / 2) / groundSize * ((groundSegments + 1 : ℤ) : ℝ)⌋ →
      getHeightAt hd x z = 0) ∧
    (¬(⌊(x + groundSize / 2) / groundSize * ((groundSegments + 1 : ℤ) : ℝ)⌋ < 0 ∨
        groundSegments ≤ ⌊(x + groundSize / 2) / groundSize * ((groundSegments + 1 : ℤ) : ℝ)⌋ ∨
        ⌊(z + groundSize / 2) / groundSize * ((groundSegments + 1 : ℤ) : ℝ)⌋ < 0 ∨
        groundSegments ≤ ⌊(z + groundSize / 2) / groundSize * ((groundSegments + 1 : ℤ) : ℝ)⌋) →
      getHeightAt hd x z =
        (hd (⌊(z + groundSize / 2) / groundSize * ((groundSegments + 1 : ℤ) : ℝ)⌋ *
              (groundSegments + 1) +
              ⌊(x + groundSize / 2) / groundSize * ((groundSegments + 1 : ℤ) : ℝ)⌋) *
            (1 - ((x + groundSize / 2) / groundSize * ((groundSegments + 1 : ℤ) : ℝ) -
              (⌊(x + groundSize / 2) / groundSize * ((groundSegments + 1 : ℤ) : ℝ)⌋ : ℝ))) +
          hd (⌊(z + groundSize / 2) / groundSize * ((groundSegments + 1 : ℤ) : ℝ)⌋ *
              (groundSegments + 1) +
              (⌊(x + groundSize / 2) / groundSize * ((groundSegments + 1 : ℤ) : ℝ)⌋ + 1)) *
            ((x + groundSize / 2) / groundSize * ((groundSegments + 1 : ℤ) : ℝ) -
              (⌊(x + groundSize / 2) / groundSize * ((groundSegments + 1 : ℤ) : ℝ)⌋ : ℝ))) *
          (1 - ((z + groundSize / 2) / groundSize * ((groundSegments + 1 : ℤ) : ℝ) -
            (⌊(z + groundSize / 2) / groundSize * ((groundSegments + 1 : ℤ) : ℝ)⌋ : ℝ))) +
        (hd ((⌊(z + groundSize / 2) / groundSize * ((groundSegments + 1 : ℤ) : ℝ)⌋ + 1) *
              (groundSegments + 1) +
              ⌊(x + groundSize / 2) / groundSize * ((groundSegments + 1 : ℤ) : ℝ)⌋) *
            (1 - ((x + groundSize / 2) / groundSize * ((groundSegments + 1 : ℤ) : ℝ) -
              (⌊(x + groundSize / 2) / groundSize * ((groundSegments + 1 : ℤ) : ℝ)⌋ : ℝ))) +
          hd ((⌊(z + groundSize / 2) / groundSize * ((groundSegments + 1 : ℤ) : ℝ)⌋ + 1) *
              (groundSegments + 1) +
              (⌊(x + groundSize / 2) / groundSize * ((groundSegments + 1 : ℤ) : ℝ)⌋ + 1)) *
            ((x + groundSize / 2) / groundSize * ((groundSegments + 1 : ℤ) : ℝ) -
              (⌊(x + groundSize / 2) / groundSize * ((groundSegments + 1 : ℤ) : ℝ)⌋ : ℝ))) *
          ((z + groundSize / 2) / groundSize * ((groundSegments + 1 : ℤ) : ℝ) -
            (⌊(z + groundSize / 2) / groundSize * ((groundSegments + 1 : ℤ) : ℝ)⌋ : ℝ))) := by
  have hidx : (groundSegments + 1 - 1 : ℤ) = groundSegments := by ring
  constructor
  · intro h
    simp only [getHeightAt, hidx]
    rw [if_pos h]
  · intro h
    simp only [getHeightAt, hidx]
    rw [if_neg h]

/-- Witness for C6: an out-of-domain query (x = 5000) returns 0, and an
in-domain query at the origin over a constant-5 sample grid returns 5. -/
theorem claim_c6_height_query_witness :
    getHeightAt (fun _ => 5) 5000 0 = 0 ∧ getHeightAt (fun _ => 5) 0 0 = 5 := by
  have hx : ((5000 : ℝ) + groundSize / 2) / groundSize * ((groundSegments + 1 : ℤ) : ℝ) =
      603 := by
    norm_num [groundSize, groundSegments]
  have hx0 : ((0 : ℝ) + groundSize / 2) / groundSize * ((groundSegments + 1 : ℤ) : ℝ) =
      201 / 2 := by
    norm_num [groundSize, groundSegments]
  have hfx : ⌊((5000 : ℝ) + groundSize / 2) / groundSize * ((groundSegments + 1 : ℤ) : ℝ)⌋ =
      603 := by
    rw [hx]
    exact_mod_cast Int.floor_intCast (603 : ℤ)
  have hf0 : ⌊((0 : ℝ) + groundSize / 2) / groundSize * ((groundSegments + 1 : ℤ) : ℝ)⌋ =
      100 := by
    rw [hx0, Int.floor_eq_iff]
    constructor <;> norm_num
  constructor
  · refine (claim_c6_height_query (fun _ => 5) 5000 0).1 ?_
    right; left
    rw [hfx]
    norm_num [groundSegments]
  · have h := (claim_c6_height_query (fun _ => 5) 0 0).2 ?_
    · rw [h]
      ring
    · push_neg
      rw [hf0]
      refine ⟨by norm_num, by norm_num [groundSegments], by norm_num,
        by norm_num [groundSegments]⟩

/-! ## C7: determinism of the frame loop -/

theorem physEq_refl (s : TruckState) : PhysEq s s :=
  ⟨rfl, rfl, rfl, rfl, rfl, rfl, rfl, rfl, rfl, rfl, rfl, rfl, rfl, rfl, rfl, rfl, rfl⟩

/-- `applyUserInput` depends only on the physics-relevant fields. -/
theorem applyUserInput_physEq (a b : TruckState) (i : UserInput) (dt : ℝ)
    (h : PhysEq a b) : PhysEq (applyUserInput a i dt) (applyUserInput b i dt) := by
  obtain ⟨hp, hv, ha, hr, hav, hm, hgc, hgn, hth, hbr, hst, hts, htt, htb, hbo, hbv, hni⟩ := h
  unfold PhysEq applyUserInput
  refine ⟨hp, hv, ha, hr, hav, ?_, hgc, hgn, hth, hbr, hst, ?_, ?_, rfl, hbo, hbv, ?_⟩
  · simp only [hni, hm]
  · simp only [hts]
  · simp only [htt]
  · simp only [hni]

/-- `update` is insensitive to the wall clock: for physics-equal states and
arbitrary `Date.now()` readings, the returned snapshots are equal and the
resulting states are physics-equal (only the sound-cooldown timestamp can
differ). -/
theorem update_physEq (a b : TruckState) (dt : ℝ) (hfn rfn : ℝ → ℝ → ℝ) (n1 n2 : ℝ)
    (h : PhysEq a b) :
    (update a dt hfn rfn n1).2 = (update b dt hfn rfn n2).2 ∧
    PhysEq (update a dt hfn rfn n1).1 (update b dt hfn rfn n2).1 := by
  obtain ⟨hp, hv, ha, hr, hav, hm, hgc, hgn, hth, hbr, hst, hts, htt, htb, hbo, hbv, hni⟩ := h
  obtain ⟨ap, av, aa, ar, aav, am, agc, agn, ath, abr, ast, ats, att, atb, abo, abv, alb, ani⟩ := a
  obtain ⟨bp, bv, ba, br2, bav, bm, bgc, bgn, bth, bbr, bst, bts, btt, btb, bbo, bbv, blb, bni⟩ := b
  simp only at hp hv ha hr hav hm hgc hgn hth hbr hst hts htt htb hbo hbv hni
  subst hp hv ha hr hav hm hgc hgn hth hbr hst hts htt htb hbo hbv hni
  exact ⟨rfl, rfl, rfl, rfl, rfl, rfl, rfl, rfl, rfl, rfl, rfl, rfl, rfl, rfl, rfl, rfl,
    rfl, rfl⟩

/-- Frame runs over physics-equal states with the same input and dt sequences
produce identical result sequences, whatever the wall-clock readings. -/
theorem runFrames_physEq (hfn rfn : ℝ → ℝ → ℝ) :
    ∀ (fs1 fs2 : List FrameStep) (a b : TruckState),
      PhysEq a b →
      fs1.map (fun f => (f.input, f.dt)) = fs2.map (fun f => (f.input, f.dt)) →
      runFrames hfn rfn a fs1 = runFrames hfn rfn b fs2
  | [], [], _, _, _, _ => rfl
  | [], _ :: _, _, _, _, hmap => by simp at hmap
  | _ :: _, [], _, _, _, hmap => by simp at hmap
  | f :: fs, g :: gs, a, b, hab, hmap => by
      simp only [List.map_cons, List.cons.injEq] at hmap
      obtain ⟨hfg, hrest⟩ := hmap
      have hinp : f.input = g.input := congrArg Prod.fst hfg
      have hdt : f.dt = g.dt := congrArg Prod.snd hfg
      simp only [runFrames]
      rw [hinp, hdt]
      have h1 : PhysEq (applyUserInput a g.input g.dt) (applyUserInput b g.input g.dt) :=
        applyUserInput_physEq a b g.input g.dt hab
      have h2 := update_physEq (applyUserInput a g.input g.dt)
        (applyUserInput b g.input g.dt) g.dt hfn rfn f.now g.now h1
      rw [h2.1]
      exact congrArg (List.cons _) (runFrames_physEq hfn rfn fs gs _ _ h2.2 hrest)

/-- **C7.** The frame loop is deterministic: for a fixed initial state, fixed
terrain callbacks and fixed `(input, dt)` sequence, two runs produce identical
`PhysicsResult` sequences — in particular the wall-clock readings (the only
impure input, feeding the boundary-sound cooldown) never influence any
returned field. -/
theorem claim_c7_determinism (hfn rfn : ℝ → ℝ → ℝ) (s : TruckState)
    (fs1 fs2 : List FrameStep)
    (hmap : fs1.map (fun f => (f.input, f.dt)) = fs2.map (fun f => (f.input, f.dt))) :
    runFrames hfn rfn s fs1 = runFrames hfn rfn s fs2 :=
  runFrames_physEq hfn rfn fs1 fs2 s s (physEq_refl s) hmap

/-- Witness for C7: one frame re-run with a wall clock shifted by 12345 ms
produces the same result snapshot. -/
theorem claim_c7_determinism_witness :
    runFrames hFlat hFlat initState [⟨leftInput, 1/60, 0⟩] =
      runFrames hFlat hFlat initState [⟨leftInput, 1/60, 12345⟩] :=
  claim_c7_determinism hFlat hFlat initState _ _ rfl

/-! ## Stage lemmas for axis-trivial (vertical) states: heading 0, no
horizontal motion, controls and their targets at 0.  These drive claims C1,
C2 and C8. -/

theorem sqrt_lengthSq_vert (vy : ℝ) (h : vy ≤ 0) :
    Real.sqrt ((Vec3.mk 0 vy 0).lengthSq) = -vy := by
  have h1 : (Vec3.mk 0 vy 0).lengthSq = (-vy) ^ 2 := by
    simp only [Vec3.lengthSq, Vec3.mk_x, Vec3.mk_y, Vec3.mk_z]
    ring
  rw [h1, Real.sqrt_sq (by linarith)]

theorem smoothedThrottle_zero (s : TruckState) (dt : ℝ)
    (hth : s.throttle = 0) (htt : s.targetThrottle = 0) :
    smoothedThrottle s dt = 0 := by
  unfold smoothedThrottle
  rw [hth, htt]
  ring

theorem smoothedBrake_zero (s : TruckState) (dt : ℝ)
    (hbr : s.brake = 0) (htb : s.targetBrake = 0) :
    smoothedBrake s dt = 0 := by
  unfold smoothedBrake
  rw [hbr, htb]
  ring

theorem lateralVelocityVectorOf_vert (s : TruckState) (vy : ℝ)
    (hrot : s.rotation = 0) (hv : s.velocity = ⟨0, vy, 0⟩) :
    lateralVelocityVectorOf s = ⟨0, vy, 0⟩ := by
  unfold lateralVelocityVectorOf
  rw [hrot, hv]
  simp [fwdDir, Vec3.dot, Vec3.smul, Vec3.sub]

theorem brakingAcceleration_zero (f v : Vec3) :
    brakingAcceleration 0 f v = Vec3.zero := by
  unfold brakingAcceleration
  rw [if_neg (lt_irrefl 0)]

theorem lateralFrictionAcceleration_airborne (speed lateralSpeed : ℝ)
    (lv rd v : Vec3) (dt : ℝ) :
    lateralFrictionAcceleration false speed lateralSpeed lv rd v dt = Vec3.zero := by
  unfold lateralFrictionAcceleration
  rw [if_neg]
  rintro ⟨h, -⟩
  exact Bool.false_ne_true h

theorem lateralFrictionAcceleration_still (gc : Bool) (speed : ℝ) (lv rd v : Vec3)
    (dt : ℝ) (hls : (0.01 : ℝ) < Vec3.length ⟨0, 0, 0⟩ → False) :
    lateralFrictionAcceleration gc speed (Vec3.length ⟨0, 0, 0⟩) lv rd v dt = Vec3.zero := by
  unfold lateralFrictionAcceleration
  rw [if_neg]
  rintro ⟨-, h⟩
  exact hls h

theorem length_zero_vec : Vec3.length ⟨0, 0, 0⟩ = 0 := by
  unfold Vec3.length Vec3.lengthSq
  norm_num

theorem dragAcceleration_still (v : Vec3) :
    dragAcceleration ((Vec3.mk 0 0 0).lengthSq) v = Vec3.zero := by
  unfold dragAcceleration
  rw [if_neg]
  simp [Vec3.lengthSq]

theorem dragAcceleration_falling (vy : ℝ) (h : vy < 0) :
    dragAcceleration ((Vec3.mk 0 vy 0).lengthSq) ⟨0, vy, 0⟩ =
      ⟨0, dragCoefficient * ((Vec3.mk 0 vy 0).lengthSq) / mass, 0⟩ := by
  have hsq : (0 : ℝ) < (Vec3.mk 0 vy 0).lengthSq := by
    simp only [Vec3.lengthSq, Vec3.mk_x, Vec3.mk_y, Vec3.mk_z]
    nlinarith
  have hlen : Vec3.length ⟨0, vy, 0⟩ = -vy := sqrt_lengthSq_vert vy (le_of_lt h)
  have hlne : Vec3.length ⟨0, vy, 0⟩ ≠ 0 := by rw [hlen]; linarith
  unfold dragAcceleration
  rw [if_pos hsq]
  unfold Vec3.normalize
  rw [if_neg hlne, hlen]
  simp only [Vec3.smul, Vec3.neg, Vec3.mk_x, Vec3.mk_y, Vec3.mk_z, Vec3.mk.injEq]
  refine ⟨by ring, ?_, by ring⟩
  have hne : vy ≠ 0 := ne_of_lt h
  have hmass : (mass : ℝ) ≠ 0 := by norm_num [mass]
  field_simp

theorem rollingResistanceAcceleration_airborne (speed speedSq : ℝ) (v : Vec3) :
    rollingResistanceAcceleration false speed speedSq v = Vec3.zero := by
  unfold rollingResistanceAcceleration
  rw [if_neg]
  rintro ⟨h, -⟩
  exact Bool.false_ne_true h

theorem rollingResistanceAcceleration_still (gc : Bool) (speed : ℝ) (v : Vec3) :
    rollingResistanceAcceleration gc speed ((Vec3.mk 0 0 0).lengthSq) v = Vec3.zero := by
  unfold rollingResistanceAcceleration
  rw [if_neg]
  rintro ⟨-, h⟩
  simp only [Vec3.lengthSq, Vec3.mk_x, Vec3.mk_y, Vec3.mk_z] at h
  norm_num at h

/-- Accumulated acceleration of a state at rest: pure gravity. -/
theorem stepAccel_rest (s : TruckState) (dt : ℝ)
    (hrot : s.rotation = 0) (hv : s.velocity = ⟨0, 0, 0⟩)
    (hth : s.throttle = 0) (htt : s.targetThrottle = 0)
    (hbr : s.brake = 0) (htb : s.targetBrake = 0) :
    stepAccel s dt = ⟨0, -9.8, 0⟩ := by
  unfold stepAccel
  rw [smoothedThrottle_zero s dt hth htt, smoothedBrake_zero s dt hbr htb,
    brakingAcceleration_zero, hv, hrot, lateralVelocityVectorOf_vert s 0 hrot hv]
  rw [lateralFrictionAcceleration_still _ _ _ _ _ _ (by rw [length_zero_vec]; norm_num),
    dragAcceleration_still, rollingResistanceAcceleration_still]
  simp [fwdDir, Vec3.add, Vec3.smul, Vec3.zero, Real.sin_zero, Real.cos_zero]

/-- Accumulated acceleration of an airborne falling state: gravity plus the
upward drag term. -/
theorem stepAccel_falling (s : TruckState) (dt vy : ℝ)
    (hrot : s.rotation = 0) (hv : s.velocity = ⟨0, vy, 0⟩) (hvy : vy < 0)
    (hgc : s.groundContact = false)
    (hth : s.throttle = 0) (htt : s.targetThrottle = 0)
    (hbr : s.brake = 0) (htb : s.targetBrake = 0) :
    stepAccel s dt = ⟨0, -9.8 + dragCoefficient * ((Vec3.mk 0 vy 0).lengthSq) / mass, 0⟩ := by
  unfold stepAccel
  rw [smoothedThrottle_zero s dt hth htt, smoothedBrake_zero s dt hbr htb,
    brakingAcceleration_zero, hv, hrot, hgc, lateralVelocityVectorOf_vert s vy hrot hv,
    lateralFrictionAcceleration_airborne, dragAcceleration_falling vy hvy,
    rollingResistanceAcceleration_airborne]
  simp [fwdDir, Vec3.add, Vec3.smul, Vec3.zero]

theorem sqrt_lengthSq_zero : Real.sqrt ((Vec3.mk (0:ℝ) 0 0).lengthSq) = 0 := by
  rw [show (Vec3.mk (0:ℝ) 0 0).lengthSq = 0 by simp [Vec3.lengthSq], Real.sqrt_zero]

/-- Velocity after rescale and integration for a state at rest: gravity only. -/
theorem integratedVelocity_rest (s : TruckState) (dt : ℝ)
    (hrot : s.rotation = 0) (hv : s.velocity = ⟨0, 0, 0⟩)
    (hth : s.throttle = 0) (htt : s.targetThrottle = 0)
    (hbr : s.brake = 0) (htb : s.targetBrake = 0) (hms : s.maxSpeedKmh = 120) :
    integratedVelocity s dt = ⟨0, -9.8 * dt, 0⟩ := by
  unfold integratedVelocity
  rw [stepAccel_rest s dt hrot hv hth htt hbr htb, hv, hms, sqrt_lengthSq_zero]
  unfold applySpeedLimit
  rw [if_neg (by norm_num)]
  simp only [Vec3.add, Vec3.smul, Vec3.mk_x, Vec3.mk_y, Vec3.mk_z, Vec3.mk.injEq]
  norm_num

/-- Velocity after rescale and integration for an airborne fall below the
speed cap: no rescale, gravity plus drag integrated. -/
theorem integratedVelocity_falling (s : TruckState) (dt vy : ℝ)
    (hrot : s.rotation = 0) (hv : s.velocity = ⟨0, vy, 0⟩) (hvy : vy < 0)
    (hnr : -(100/3) ≤ vy) (hgc : s.groundContact = false)
    (hth : s.throttle = 0) (htt : s.targetThrottle = 0)
    (hbr : s.brake = 0) (htb : s.targetBrake = 0) (hms : s.maxSpeedKmh = 120) :
    integratedVelocity s dt =
      ⟨0, vy + (-9.8 + 0.05 * (vy * vy) / 1200) * dt, 0⟩ := by
  unfold integratedVelocity
  rw [stepAccel_falling s dt vy hrot hv hvy hgc hth htt hbr htb, hv, hms,
    sqrt_lengthSq_vert vy (le_of_lt hvy)]
  unfold applySpeedLimit
  rw [if_neg (by linarith)]
  simp only [Vec3.add, Vec3.smul, Vec3.mk_x, Vec3.mk_y, Vec3.mk_z, Vec3.mk.injEq,
    Vec3.lengthSq, dragCoefficient, mass]
  norm_num

/-- Velocity after rescale and integration for any airborne downward motion,
including beyond the speed cap: bounded shape. -/
theorem integratedVelocity_vert_bounds (s : TruckState) (dt vy : ℝ)
    (hrot : s.rotation = 0) (hv : s.velocity = ⟨0, vy, 0⟩) (hvy : vy < 0)
    (hlow : -(172/5) ≤ vy) (hgc : s.groundContact = false)
    (hth : s.throttle = 0) (htt : s.targetThrottle = 0)
    (hbr : s.brake = 0) (htb : s.targetBrake = 0) (hms : s.maxSpeedKmh = 120)
    (hdt : 0 < dt) (hdt1 : dt ≤ 0.1) :
    ∃ w : ℝ, integratedVelocity s dt = ⟨0, w, 0⟩ ∧ w < 0 ∧ -(172/5) ≤ w := by
  have haY1 : (0:ℝ) ≤ 0.05 * (vy * vy) / 1200 := by nlinarith [mul_self_nonneg vy]
  have haY2 : 0.05 * (vy * vy) / 1200 ≤ 0.05 := by nlinarith
  unfold integratedVelocity
  rw [stepAccel_falling s dt vy hrot hv hvy hgc hth htt hbr htb, hv, hms,
    sqrt_lengthSq_vert vy (le_of_lt hvy)]
  unfold applySpeedLimit
  by_cases hcap : (120 : ℝ) < -vy * 3.6
  · rw [if_pos hcap]
    refine ⟨vy * (120 / (-vy * 3.6)) + (-9.8 + dragCoefficient *
      ((Vec3.mk 0 vy 0).lengthSq) / mass) * dt, ?_, ?_, ?_⟩
    · simp only [Vec3.add, Vec3.smul, Vec3.mk_x, Vec3.mk_y, Vec3.mk_z, Vec3.mk.injEq]
      norm_num
    · have hvyne : vy ≠ 0 := ne_of_lt hvy
      have hres : vy * (120 / (-vy * 3.6)) = -(100/3) := by
        field_simp
        ring
      rw [hres]
      simp only [Vec3.lengthSq, Vec3.mk_x, Vec3.mk_y, Vec3.mk_z, dragCoefficient, mass]
      nlinarith
    · have hvyne : vy ≠ 0 := ne_of_lt hvy
      have hres : vy * (120 / (-vy * 3.6)) = -(100/3) := by
        field_simp
        ring
      rw [hres]
      simp only [Vec3.lengthSq, Vec3.mk_x, Vec3.mk_y, Vec3.mk_z, dragCoefficient, mass]
      nlinarith
  · rw [if_neg hcap]
    refine ⟨vy + (-9.8 + dragCoefficient * ((Vec3.mk 0 vy 0).lengthSq) / mass) * dt,
      ?_, ?_, ?_⟩
    · simp only [Vec3.add, Vec3.smul, Vec3.mk_x, Vec3.mk_y, Vec3.mk_z, Vec3.mk.injEq]
      norm_num
    · simp only [Vec3.lengthSq, Vec3.mk_x, Vec3.mk_y, Vec3.mk_z, dragCoefficient, mass]
      nlinarith
    · push_neg at hcap
      simp only [Vec3.lengthSq, Vec3.mk_x, Vec3.mk_y, Vec3.mk_z, dragCoefficient, mass]
      nlinarith

/-- The angular velocity stays zero at rest: the steering impulse scales with
speed, which is zero. -/
theorem newAngularVelocity_rest (s : TruckState) (dt : ℝ)
    (hav : s.angularVelocity = 0) (hv : s.velocity = ⟨0, 0, 0⟩) :
    newAngularVelocity s dt = 0 := by
  unfold newAngularVelocity yawAngularVelocity
  rw [hav, hv, sqrt_lengthSq_zero]
  split_ifs
  · norm_num
  · norm_num

/-- The angular velocity stays zero while airborne: the steering block is
gated on ground contact. -/
theorem newAngularVelocity_airborne (s : TruckState) (dt : ℝ)
    (hav : s.angularVelocity = 0) (hgc : s.groundContact = false) :
    newAngularVelocity s dt = 0 := by
  unfold newAngularVelocity yawAngularVelocity
  rw [hav, hgc]
  norm_num

/-- On the vertical axis the boundary stage is a no-op. -/
theorem boundary_skip_vert (s : TruckState) (dt y w lt now : ℝ)
    (hpos : s.position = ⟨0, y, 0⟩)
    (hiv : integratedVelocity s dt = ⟨0, w, 0⟩) :
    movementVectorOf s dt = ⟨0, w * dt, 0⟩ ∧
    boundedVelocity s dt = ⟨0, w, 0⟩ ∧
    applyBoundaryTime s.position ((integratedVelocity s dt).smul dt) lt now = lt := by
  have hmv : (integratedVelocity s dt).smul dt = ⟨0, w * dt, 0⟩ := by
    rw [hiv]
    simp [Vec3.smul]
  have hnh : ¬ boundaryHit s.position ((integratedVelocity s dt).smul dt) := by
    unfold boundaryHit
    rw [hmv, hpos]
    push_neg
    simp only [Vec3.add_x, Vec3.add_z, Vec3.mk_x, Vec3.mk_z]
    norm_num [boundaryLimit]
  refine ⟨?_, ?_, ?_⟩
  · simp only [movementVectorOf, applyBoundaryMovement]
    rw [if_neg hnh]
    exact hmv
  · simp only [boundedVelocity, applyBoundaryVelocity]
    rw [if_neg hnh]
    exact hiv
  · simp only [applyBoundaryTime]
    rw [if_neg hnh]

/-- Full characterization of `update` on an airborne falling state below the
speed cap that stays airborne through the step. -/
theorem update_falling (s : TruckState) (dt y vy : ℝ) (hfn rfn : ℝ → ℝ → ℝ) (now : ℝ)
    (hrot : s.rotation = 0) (hav : s.angularVelocity = 0)
    (hv : s.velocity = ⟨0, vy, 0⟩) (hvy : vy < 0) (hnr : -(100/3) ≤ vy)
    (hpos : s.position = ⟨0, y, 0⟩)
    (hth : s.throttle = 0) (htt : s.targetThrottle = 0)
    (hbr : s.brake = 0) (htb : s.targetBrake = 0)
    (hgc : s.groundContact = false) (hms : s.maxSpeedKmh = 120)
    (hbo : s.bounce = 0) (hbv : s.bounceVelocity = 0)
    (hair : hfn 0 0 + 0.8 < y + (vy + (-9.8 + 0.05 * (vy * vy) / 1200) * dt) * dt) :
    (update s dt hfn rfn now).1.rotation = 0 ∧
    (update s dt hfn rfn now).1.angularVelocity = 0 ∧
    (update s dt hfn rfn now).1.velocity =
      ⟨0, vy + (-9.8 + 0.05 * (vy * vy) / 1200) * dt, 0⟩ ∧
    (update s dt hfn rfn now).1.position =
      ⟨0, y + (vy + (-9.8 + 0.05 * (vy * vy) / 1200) * dt) * dt, 0⟩ ∧
    (update s dt hfn rfn now).1.groundContact = false ∧
    (update s dt hfn rfn now).1.throttle = 0 ∧
    (update s dt hfn rfn now).1.brake = 0 ∧
    (update s dt hfn rfn now).1.targetThrottle = 0 ∧
    (update s dt hfn rfn now).1.targetBrake = 0 ∧
    (update s dt hfn rfn now).1.maxSpeedKmh = 120 ∧
    (update s dt hfn rfn now).1.nitroActive = s.nitroActive ∧
    (update s dt hfn rfn now).1.bounce = 0 ∧
    (update s dt hfn rfn now).1.bounceVelocity = 0 := by
  have hivf := integratedVelocity_falling s dt vy hrot hv hvy hnr hgc hth htt hbr htb hms
  have hbs := boundary_skip_vert s dt y (vy + (-9.8 + 0.05 * (vy * vy) / 1200) * dt)
    s.lastBoundaryCollisionTime now hpos hivf
  have hnav := newAngularVelocity_airborne s dt hav hgc
  have hsmt := smoothedThrottle_zero s dt hth htt
  have hsmb := smoothedBrake_zero s dt hbr htb
  simp only [update, hnav, hbs.1, hbs.2.1, hpos, hbo, hbv, hms, hsmt, hsmb, hrot, htt, htb,
    Vec3.add_x, Vec3.add_y, Vec3.add_z, Vec3.mk_x, Vec3.mk_y, Vec3.mk_z,
    zero_add, add_zero, mul_zero, zero_mul, sub_zero]
  have hgr : ¬ (y + (vy + (-9.8 + 0.05 * (vy * vy) / 1200) * dt) * dt <
      hfn 0 0 + suspensionHeight) := by
    push_neg
    rw [suspensionHeight]
    norm_num
    linarith
  have hfl : ¬ (y + (vy + (-9.8 + 0.05 * (vy * vy) / 1200) * dt) * dt <
      hfn 0 0 + 0.1) := by
    push_neg
    linarith
  simp only [hgr, hfl, if_false, false_and, Vec3.add_x, Vec3.add_y, Vec3.add_z,
    Vec3.mk_x, Vec3.mk_y, Vec3.mk_z, zero_add, add_zero, mul_zero, zero_mul, sub_zero,
    decide_False]
  norm_num
  simp [Vec3.add]

/-- Bounds for `update` on a state at rest (zero velocity, any ground-contact
flag): the step leaves heading and angular velocity at zero, keeps the truck
on the vertical axis, and the only velocity produced is a small downward
gravity increment, zeroed again on ground contact. -/
theorem update_rest_bounds (s : TruckState) (dt y : ℝ) (hfn rfn : ℝ → ℝ → ℝ) (now : ℝ)
    (hrot : s.rotation = 0) (hav : s.angularVelocity = 0)
    (hv : s.velocity = ⟨0, 0, 0⟩) (hpos : s.position = ⟨0, y, 0⟩)
    (hth : s.throttle = 0) (htt : s.targetThrottle = 0)
    (hbr : s.brake = 0) (htb : s.targetBrake = 0) (hms : s.maxSpeedKmh = 120)
    (hdt : 0 < dt) (hdt1 : dt ≤ 0.1) :
    (update s dt hfn rfn now).1.rotation = 0 ∧
    (update s dt hfn rfn now).1.angularVelocity = 0 ∧
    (update s dt hfn rfn now).1.velocity.x = 0 ∧
    (update s dt hfn rfn now).1.velocity.z = 0 ∧
    (update s dt hfn rfn now).1.velocity.y ≤ 0 ∧
    -(172/5) ≤ (update s dt hfn rfn now).1.velocity.y ∧
    ((update s dt hfn rfn now).1.groundContact = true →
      (update s dt hfn rfn now).1.velocity.y = 0) ∧
    (update s dt hfn rfn now).1.position.x = 0 ∧
    (update s dt hfn rfn now).1.position.z = 0 ∧
    (update s dt hfn rfn now).1.throttle = 0 ∧
    (update s dt hfn rfn now).1.brake = 0 ∧
    (update s dt hfn rfn now).1.targetThrottle = 0 ∧
    (update s dt hfn rfn now).1.targetBrake = 0 ∧
    (update s dt hfn rfn now).1.maxSpeedKmh = 120 ∧
    (update s dt hfn rfn now).1.nitroActive = s.nitroActive := by
  have hivr := integratedVelocity_rest s dt hrot hv hth htt hbr htb hms
  have hbs := boundary_skip_vert s dt y (-9.8 * dt)
    s.lastBoundaryCollisionTime now hpos hivr
  have hnav := newAngularVelocity_rest s dt hav hv
  have hsmt := smoothedThrottle_zero s dt hth htt
  have hsmb := smoothedBrake_zero s dt hbr htb
  have hw : (-9.8 : ℝ) * dt ≤ 0 := by nlinarith
  have hw2 : -(172/5 : ℝ) ≤ -9.8 * dt := by nlinarith
  simp only [update, hnav, hbs.1, hbs.2.1, hpos, hms, hsmt, hsmb, hrot, htt, htb,
    Vec3.add_x, Vec3.add_y, Vec3.add_z, Vec3.mk_x, Vec3.mk_y, Vec3.mk_z,
    zero_add, add_zero, mul_zero, zero_mul, sub_zero]
  have hmax0 : max 0 (-9.8 * dt) = 0 := max_eq_left hw
  split_ifs <;>
    simp only [Vec3.mk_x, Vec3.mk_y, Vec3.mk_z, neg_neg, hmax0, decide_True,
      decide_False] <;>
    norm_num <;>
    first
      | linarith
      | (constructor <;> linarith)
      | (intro h; exact absurd h (by simp))
      | (refine ⟨by linarith, by linarith, fun h => by exfalso; linarith⟩)

/-- Bounds for `update` on an airborne state moving straight down (any speed,
including beyond the cap): the step keeps heading and angular velocity at
zero, keeps the truck on the vertical axis, and the downward speed stays
within the cap-plus-one-gravity-increment bound, zeroed on landing. -/
theorem update_airborne_bounds (s : TruckState) (dt y vy : ℝ) (hfn rfn : ℝ → ℝ → ℝ)
    (now : ℝ)
    (hrot : s.rotation = 0) (hav : s.angularVelocity = 0)
    (hv : s.velocity = ⟨0, vy, 0⟩) (hvy : vy < 0) (hlow : -(172/5) ≤ vy)
    (hpos : s.position = ⟨0, y, 0⟩)
    (hth : s.throttle = 0) (htt : s.targetThrottle = 0)
    (hbr : s.brake = 0) (htb : s.targetBrake = 0)
    (hgc : s.groundContact = false) (hms : s.maxSpeedKmh = 120)
    (hdt : 0 < dt) (hdt1 : dt ≤ 0.1) :
    (update s dt hfn rfn now).1.rotation = 0 ∧
    (update s dt hfn rfn now).1.angularVelocity = 0 ∧
    (update s dt hfn rfn now).1.velocity.x = 0 ∧
    (update s dt hfn rfn now).1.velocity.z = 0 ∧
    (update s dt hfn rfn now).1.velocity.y ≤ 0 ∧
    -(172/5) ≤ (update s dt hfn rfn now).1.velocity.y ∧
    ((update s dt hfn rfn now).1.groundContact = true →
      (update s dt hfn rfn now).1.velocity.y = 0) ∧
    (update s dt hfn rfn now).1.position.x = 0 ∧
    (update s dt hfn rfn now).1.position.z = 0 ∧
    (update s dt hfn rfn now).1.throttle = 0 ∧
    (update s dt hfn rfn now).1.brake = 0 ∧
    (update s dt hfn rfn now).1.targetThrottle = 0 ∧
    (update s dt hfn rfn now).1.targetBrake = 0 ∧
    (update s dt hfn rfn now).1.maxSpeedKmh = 120 ∧
    (update s dt hfn rfn now).1.nitroActive = s.nitroActive := by
  obtain ⟨w, hiw, hw1, hw2⟩ := integratedVelocity_vert_bounds s dt vy hrot hv hvy hlow
    hgc hth htt hbr htb hms hdt hdt1
  have hbs := boundary_skip_vert s dt y w s.lastBoundaryCollisionTime now hpos hiw
  have hnav := newAngularVelocity_airborne s dt hav hgc
  have hsmt := smoothedThrottle_zero s dt hth htt
  have hsmb := smoothedBrake_zero s dt hbr htb
  have hw : w ≤ 0 := le_of_lt hw1
  simp only [update, hnav, hbs.1, hbs.2.1, hpos, hms, hsmt, hsmb, hrot, htt, htb,
    Vec3.add_x, Vec3.add_y, Vec3.add_z, Vec3.mk_x, Vec3.mk_y, Vec3.mk_z,
    zero_add, add_zero, mul_zero, zero_mul, sub_zero]
  have hmax0 : max 0 w = 0 := max_eq_left hw
  split_ifs <;>
    simp only [Vec3.mk_x, Vec3.mk_y, Vec3.mk_z, neg_neg, hmax0, decide_True,
      decide_False] <;>
    norm_num <;>
    first
      | linarith
      | (constructor <;> linarith)
      | (intro h; exact absurd h (by simp))
      | (refine ⟨by linarith, by linarith, fun h => by exfalso; linarith⟩)
      | (refine ⟨by linarith, by linarith, fun h => by rfl⟩)
      | (refine ⟨by linarith, by linarith, fun h => by linarith⟩)

/-! ## C8: steering at rest produces no yaw -/

/-- One left-steer frame (input then physics step) preserves the rest-like
invariant: heading and angular velocity zero, no horizontal velocity or
displacement, idle drive controls, and bounded vertical motion. -/
theorem frame_left_preserves (s : TruckState) (dt : ℝ) (hfn rfn : ℝ → ℝ → ℝ) (now : ℝ)
    (hrot : s.rotation = 0) (hav : s.angularVelocity = 0)
    (hvx : s.velocity.x = 0) (hvz : s.velocity.z = 0)
    (hvy : s.velocity.y ≤ 0) (hvyl : -(172/5) ≤ s.velocity.y)
    (hgcv : s.groundContact = true → s.velocity.y = 0)
    (hx : s.position.x = 0) (hz : s.position.z = 0)
    (hth : s.throttle = 0) (htt : s.targetThrottle = 0)
    (hbr : s.brake = 0) (htb : s.targetBrake = 0)
    (hms : s.maxSpeedKmh = 120)
    (hdt : 0 < dt) (hdt1 : dt ≤ 0.1) :
    (update (applyUserInput s leftInput dt) dt hfn rfn now).1.rotation = 0 ∧
    (update (applyUserInput s leftInput dt) dt hfn rfn now).1.angularVelocity = 0 ∧
    (update (applyUserInput s leftInput dt) dt hfn rfn now).1.velocity.x = 0 ∧
    (update (applyUserInput s leftInput dt) dt hfn rfn now).1.velocity.z = 0 ∧
    (update (applyUserInput s leftInput dt) dt hfn rfn now).1.velocity.y ≤ 0 ∧
    -(172/5) ≤ (update (applyUserInput s leftInput dt) dt hfn rfn now).1.velocity.y ∧
    ((update (applyUserInput s leftInput dt) dt hfn rfn now).1.groundContact = true →
      (update (applyUserInput s leftInput dt) dt hfn rfn now).1.velocity.y = 0) ∧
    (update (applyUserInput s leftInput dt) dt hfn rfn now).1.position.x = 0 ∧
    (update (applyUserInput s leftInput dt) dt hfn rfn now).1.position.z = 0 ∧
    (update (applyUserInput s leftInput dt) dt hfn rfn now).1.throttle = 0 ∧
    (update (applyUserInput s leftInput dt) dt hfn rfn now).1.targetThrottle = 0 ∧
    (update (applyUserInput s leftInput dt) dt hfn rfn now).1.brake = 0 ∧
    (update (applyUserInput s leftInput dt) dt hfn rfn now).1.targetBrake = 0 ∧
    (update (applyUserInput s leftInput dt) dt hfn rfn now).1.maxSpeedKmh = 120 := by
  set s1 := applyUserInput s leftInput dt with hs1
  have h1rot : s1.rotation = 0 := by rw [hs1]; simp [applyUserInput]; exact hrot
  have h1av : s1.angularVelocity = 0 := by rw [hs1]; simp [applyUserInput]; exact hav
  have h1v : s1.velocity = s.velocity := by rw [hs1]; simp [applyUserInput]
  have h1p : s1.position = s.position := by rw [hs1]; simp [applyUserInput]
  have h1th : s1.throttle = 0 := by rw [hs1]; simp [applyUserInput]; exact hth
  have h1br : s1.brake = 0 := by rw [hs1]; simp [applyUserInput]; exact hbr
  have h1gc : s1.groundContact = s.groundContact := by rw [hs1]; simp [applyUserInput]
  have h1tt : s1.targetThrottle = 0 := by
    rw [hs1]
    simp [applyUserInput, leftInput, htt]
  have h1tb : s1.targetBrake = 0 := by
    rw [hs1]
    simp [applyUserInput, leftInput]
  have h1ms : s1.maxSpeedKmh = 120 := by
    rw [hs1]
    simp only [applyUserInput, leftInput]
    split_ifs with ha hb <;> simp_all [normalMaxSpeedKmh]
  have hpv : s1.position = ⟨0, s.position.y, 0⟩ := by
    rw [h1p, Vec3.ext_iff]
    exact ⟨hx, rfl, hz⟩
  by_cases hvy0 : s.velocity.y = 0
  · have hv0 : s1.velocity = ⟨0, 0, 0⟩ := by
      rw [h1v, Vec3.ext_iff]
      exact ⟨hvx, hvy0, hvz⟩
    have h := update_rest_bounds s1 dt s.position.y hfn rfn now h1rot h1av hv0 hpv
      h1th h1tt h1br h1tb h1ms hdt hdt1
    obtain ⟨a1, a2, a3, a4, a5, a6, a7, a8, a9, a10, a11, a12, a13, a14, a15⟩ := h
    exact ⟨a1, a2, a3, a4, a5, a6, a7, a8, a9, a10, a12, a11, a13, a14⟩
  · have hvneg : s.velocity.y < 0 := lt_of_le_of_ne hvy hvy0
    have hgcf : s.groundContact = false := by
      cases hgcb : s.groundContact
      · rfl
      · exact absurd (hgcv hgcb) hvy0
    have hv1 : s1.velocity = ⟨0, s.velocity.y, 0⟩ := by
      rw [h1v, Vec3.ext_iff]
      exact ⟨hvx, rfl, hvz⟩
    have h1gcf : s1.groundContact = false := by rw [h1gc]; exact hgcf
    have h := update_airborne_bounds s1 dt s.position.y s.velocity.y hfn rfn now h1rot
      h1av hv1 hvneg hvyl hpv h1th h1tt h1br h1tb h1gcf h1ms hdt hdt1
    obtain ⟨a1, a2, a3, a4, a5, a6, a7, a8, a9, a10, a11, a12, a13, a14, a15⟩ := h
    exact ⟨a1, a2, a3, a4, a5, a6, a7, a8, a9, a10, a12, a11, a13, a14⟩

/-- The rest-like invariant holds along every left-steer frame trace with
game-loop-valid time steps. -/
theorem runLeft_preserves (hfn rfn : ℝ → ℝ → ℝ) (now : ℝ) (dts : List ℝ)
    (s : TruckState)
    (hdts : ∀ dt ∈ dts, 0 < dt ∧ dt ≤ 0.1)
    (hrot : s.rotation = 0) (hav : s.angularVelocity = 0)
    (hvx : s.velocity.x = 0) (hvz : s.velocity.z = 0)
    (hvy : s.velocity.y ≤ 0) (hvyl : -(172/5) ≤ s.velocity.y)
    (hgcv : s.groundContact = true → s.velocity.y = 0)
    (hx : s.position.x = 0) (hz : s.position.z = 0)
    (hth : s.throttle = 0) (htt : s.targetThrottle = 0)
    (hbr : s.brake = 0) (htb : s.targetBrake = 0)
    (hms : s.maxSpeedKmh = 120) :
    (runLeft hfn rfn now s dts).rotation = 0 ∧
    (runLeft hfn rfn now s dts).angularVelocity = 0 := by
  induction dts generalizing s with
  | nil => exact ⟨hrot, hav⟩
  | cons dt dts ih =>
      have hd := hdts dt (List.mem_cons_self dt dts)
      have h := frame_left_preserves s dt hfn rfn now hrot hav hvx hvz hvy hvyl hgcv
        hx hz hth htt hbr htb hms hd.1 hd.2
      obtain ⟨a1, a2, a3, a4, a5, a6, a7, a8, a9, a10, a11, a12, a13, a14⟩ := h
      simp only [runLeft]
      exact ih (update (applyUserInput s leftInput dt) dt hfn rfn now).1
        (fun d hd2 => hdts d (List.mem_cons_of_mem dt hd2))
        a1 a2 a3 a4 a5 a6 a7 a8 a9 a10 a11 a12 a13 a14

/-- **C8.** Starting at rest from the spawn state and holding only the
left-steer input, the physics produces zero net yaw after any number of
frames with game-loop-valid time steps, for every terrain callback: the
steering-induced angular acceleration scales with speed, which stays zero. -/
theorem claim_c8_no_yaw_at_rest (hfn rfn : ℝ → ℝ → ℝ) (now : ℝ) (dts : List ℝ)
    (hdts : ∀ dt ∈ dts, 0 < dt ∧ dt ≤ 0.1) :
    (runLeft hfn rfn now initState dts).rotation = 0 ∧
    (runLeft hfn rfn now initState dts).angularVelocity = 0 := by
  refine runLeft_preserves hfn rfn now dts initState hdts rfl rfl rfl rfl ?_ ?_ ?_
    rfl rfl rfl rfl rfl rfl rfl
  · norm_num [initState, Vec3.zero]
  · norm_num [initState, Vec3.zero]
  · intro _
    rfl

/-- Witness for C8: two frames at 60 fps of pure left steering leave the
heading at zero. -/
theorem claim_c8_no_yaw_at_rest_witness :
    (runLeft hFlat hFlat 0 initState [1/60, 1/60]).rotation = 0 ∧
    (runLeft hFlat hFlat 0 initState [1/60, 1/60]).angularVelocity = 0 :=
  claim_c8_no_yaw_at_rest hFlat hFlat 0 [1/60, 1/60]
    (by
      intro dt h
      simp only [List.mem_cons, List.mem_singleton] at h
      rcases h with h | h | h <;> first | (rw [h]; norm_num) | exact absurd h (by simp))

/-- Exact characterization of `update` on a resting state that lands on the
terrain during the step (small impact): the truck snaps to ride height with
zero velocity. -/
theorem update_rest_lands (s : TruckState) (dt y : ℝ) (hfn rfn : ℝ → ℝ → ℝ) (now : ℝ)
    (hrot : s.rotation = 0) (hav : s.angularVelocity = 0)
    (hv : s.velocity = ⟨0, 0, 0⟩) (hpos : s.position = ⟨0, y, 0⟩)
    (hth : s.throttle = 0) (htt : s.targetThrottle = 0)
    (hbr : s.brake = 0) (htb : s.targetBrake = 0) (hms : s.maxSpeedKmh = 120)
    (hbo : s.bounce = 0) (hbv : s.bounceVelocity = 0)
    (hdt : 0 < dt) (hdt1 : dt ≤ 0.1)
    (hland : y + -9.8 * dt * dt < hfn 0 0 + 0.8) :
    (update s dt hfn rfn now).1.rotation = 0 ∧
    (update s dt hfn rfn now).1.angularVelocity = 0 ∧
    (update s dt hfn rfn now).1.velocity = ⟨0, 0, 0⟩ ∧
    (update s dt hfn rfn now).1.position = ⟨0, hfn 0 0 + 0.8, 0⟩ ∧
    (update s dt hfn rfn now).1.groundContact = true ∧
    (update s dt hfn rfn now).1.throttle = 0 ∧
    (update s dt hfn rfn now).1.brake = 0 ∧
    (update s dt hfn rfn now).1.targetThrottle = 0 ∧
    (update s dt hfn rfn now).1.targetBrake = 0 ∧
    (update s dt hfn rfn now).1.maxSpeedKmh = 120 ∧
    (update s dt hfn rfn now).1.nitroActive = s.nitroActive ∧
    (update s dt hfn rfn now).1.bounce = 0 ∧
    (update s dt hfn rfn now).1.bounceVelocity = 0 := by
  have hivr := integratedVelocity_rest s dt hrot hv hth htt hbr htb hms
  have hbs := boundary_skip_vert s dt y (-9.8 * dt)
    s.lastBoundaryCollisionTime now hpos hivr
  have hnav := newAngularVelocity_rest s dt hav hv
  have hsmt := smoothedThrottle_zero s dt hth htt
  have hsmb := smoothedBrake_zero s dt hbr htb
  have hw : (-9.8 : ℝ) * dt ≤ 0 := by nlinarith
  have hmax0 : max 0 (-9.8 * dt) = 0 := max_eq_left hw
  simp only [update, hnav, hbs.1, hbs.2.1, hpos, hbo, hbv, hms, hsmt, hsmb, hrot, htt, htb,
    Vec3.add_x, Vec3.add_y, Vec3.add_z, Vec3.mk_x, Vec3.mk_y, Vec3.mk_z,
    zero_add, add_zero, mul_zero, zero_mul, sub_zero, neg_neg]
  have hgr : y + -9.8 * dt * dt < hfn 0 0 + suspensionHeight := by
    rw [suspensionHeight]
    norm_num
    linarith
  have hni : ¬ ((5:ℝ) < max 0 (9.8 * dt)) := by
    rw [max_eq_right (by nlinarith)]
    nlinarith
  have hnf : ¬ (hfn 0 0 + suspensionHeight < hfn 0 0 + 0.1) := by
    push_neg
    rw [suspensionHeight]
    norm_num
  simp only [hgr, hni, hnf, if_true, if_false, true_and, and_false, false_and, if_neg,
    hmax0, decide_True, Vec3.mk_x, Vec3.mk_y, Vec3.mk_z, zero_add, add_zero, mul_zero,
    zero_mul, sub_zero]
  norm_num [suspensionHeight]
  have h5 : ¬ ((5:ℝ) < 49/5 * dt) := by nlinarith
  refine ⟨fun h => absurd h h5, ?_⟩
  simp [h5]

/-- Exact characterization of `update` on a resting state that stays above
ride height through the step: the truck goes airborne with one gravity
increment of downward velocity. -/
theorem update_rest_airborne (s : TruckState) (dt y : ℝ) (hfn rfn : ℝ → ℝ → ℝ) (now : ℝ)
    (hrot : s.rotation = 0) (hav : s.angularVelocity = 0)
    (hv : s.velocity = ⟨0, 0, 0⟩) (hpos : s.position = ⟨0, y, 0⟩)
    (hth : s.throttle = 0) (htt : s.targetThrottle = 0)
    (hbr : s.brake = 0) (htb : s.targetBrake = 0) (hms : s.maxSpeedKmh = 120)
    (hbo : s.bounce = 0) (hbv : s.bounceVelocity = 0)
    (hair : hfn 0 0 + 0.8 ≤ y + -9.8 * dt * dt) :
    (update s dt hfn rfn now).1.rotation = 0 ∧
    (update s dt hfn rfn now).1.angularVelocity = 0 ∧
    (update s dt hfn rfn now).1.velocity = ⟨0, -9.8 * dt, 0⟩ ∧
    (update s dt hfn rfn now).1.position = ⟨0, y + -9.8 * dt * dt, 0⟩ ∧
    (update s dt hfn rfn now).1.groundContact = false ∧
    (update s dt hfn rfn now).1.throttle = 0 ∧
    (update s dt hfn rfn now).1.brake = 0 ∧
    (update s dt hfn rfn now).1.targetThrottle = 0 ∧
    (update s dt hfn rfn now).1.targetBrake = 0 ∧
    (update s dt hfn rfn now).1.maxSpeedKmh = 120 ∧
    (update s dt hfn rfn now).1.nitroActive = s.nitroActive ∧
    (update s dt hfn rfn now).1.bounce = 0 ∧
    (update s dt hfn rfn now).1.bounceVelocity = 0 := by
  have hivr := integratedVelocity_rest s dt hrot hv hth htt hbr htb hms
  have hbs := boundary_skip_vert s dt y (-9.8 * dt)
    s.lastBoundaryCollisionTime now hpos hivr
  have hnav := newAngularVelocity_rest s dt hav hv
  have hsmt := smoothedThrottle_zero s dt hth htt
  have hsmb := smoothedBrake_zero s dt hbr htb
  simp only [update, hnav, hbs.1, hbs.2.1, hpos, hbo, hbv, hms, hsmt, hsmb, hrot, htt, htb,
    Vec3.add_x, Vec3.add_y, Vec3.add_z, Vec3.mk_x, Vec3.mk_y, Vec3.mk_z,
    zero_add, add_zero, mul_zero, zero_mul, sub_zero, neg_neg]
  have hgr : ¬ (y + -9.8 * dt * dt < hfn 0 0 + suspensionHeight) := by
    push_neg
    rw [suspensionHeight]
    norm_num
    linarith
  have hnf : ¬ (y + -9.8 * dt * dt < hfn 0 0 + 0.1) := by
    push_neg
    rw [suspensionHeight] at hgr
    push_neg at hgr
    norm_num at hgr ⊢
    linarith
  simp only [hgr, hnf, if_true, if_false, true_and, and_false, false_and,
    decide_False, Vec3.mk_x, Vec3.mk_y, Vec3.mk_z, zero_add, add_zero, mul_zero,
    zero_mul, sub_zero]
  norm_num
  have hnf2 : ¬ (y < hfn 0 0 + 1/10 + 49/5 * dt * dt) := by
    push_neg
    push_neg at hnf
    norm_num at hnf
    linarith
  refine ⟨fun h => absurd h hnf2, ?_⟩
  rw [if_neg hnf2]
  simp [Vec3.add]

/-! ## C1: the falling scenario that defeats the post-step speed cap -/

/-- Every `fallState` is reachable: each step is an `update` with the valid
maximal frame time 0.1 s. -/
theorem fallState_reachable (k : ℕ) : Reachable (fallState k) := by
  induction k with
  | zero =>
      exact Reachable.step initState 0.1 hLift hFlat 0 Reachable.init (by norm_num [ValidDt])
  | succ n ih =>
      exact Reachable.step (fallState n) 0.1 hFlat hFlat 0 ih (by norm_num [ValidDt])

set_option maxHeartbeats 1600000 in
/-- Shape and speed bounds along the fall: after `k` falling steps
(1 ≤ k ≤ 34) the truck is airborne on the vertical axis with downward speed
between 0.975·k and 0.98·k m/s, well above the flat ground. -/
theorem fall_chain : ∀ k : ℕ, 1 ≤ k → k ≤ 34 →
    (fallState k).rotation = 0 ∧
    (fallState k).angularVelocity = 0 ∧
    (∃ vy : ℝ, (fallState k).velocity = ⟨0, vy, 0⟩ ∧
      vy ≤ -(39/40) * (k : ℝ) ∧ -(49/50) * (k : ℝ) ≤ vy) ∧
    (∃ y : ℝ, (fallState k).position = ⟨0, y, 0⟩ ∧
      10000.8 - 3.5 * (k : ℝ) ≤ y ∧ y ≤ 10000.8) ∧
    (fallState k).groundContact = false ∧
    (fallState k).throttle = 0 ∧
    (fallState k).targetThrottle = 0 ∧
    (fallState k).brake = 0 ∧
    (fallState k).targetBrake = 0 ∧
    (fallState k).maxSpeedKmh = 120 ∧
    (fallState k).nitroActive = false ∧
    (fallState k).bounce = 0 ∧
    (fallState k).bounceVelocity = 0 := by
  have he0 : fallState 0 = (update initState 0.1 hLift hFlat 0).1 := rfl
  intro k
  induction k with
  | zero => omega
  | succ n ih =>
      intro h1 h2
      have he : fallState (n + 1) = (update (fallState n) 0.1 hFlat hFlat 0).1 := rfl
      rw [he]
      by_cases hn : n = 0
      · subst hn
        have h0 := update_rest_lands initState 0.1 0.5 hLift hFlat 0 rfl rfl rfl rfl
          rfl rfl rfl rfl rfl rfl rfl (by norm_num) (by norm_num)
          (by norm_num [hLift])
        obtain ⟨c1, c2, c3, c4, c5, c6, c7, c8, c9, c10, c11, c12, c13⟩ := h0
        have hpos0 : (fallState 0).position = ⟨0, 10000.8, 0⟩ := by
          rw [he0, c4]
          norm_num [hLift]
        have h1s := update_rest_airborne (fallState 0) 0.1 10000.8 hFlat hFlat 0
          c1 c2 c3 hpos0 c6 c8 c7 c9 c10 c12 c13 (by norm_num [hFlat])
        obtain ⟨d1, d2, d3, d4, d5, d6, d7, d8, d9, d10, d11, d12, d13⟩ := h1s
        refine ⟨d1, d2, ⟨-9.8 * 0.1, d3, by norm_num, by norm_num⟩,
          ⟨10000.8 + -9.8 * 0.1 * 0.1, d4, by norm_num, by norm_num⟩,
          d5, d6, d8, d7, d9, d10, ?_, d12, d13⟩
        rw [d11, he0, c11]
        rfl
      · have hge : 1 ≤ n := Nat.one_le_iff_ne_zero.mpr hn
        have hle : n ≤ 34 := by omega
        have hle33 : (n : ℝ) ≤ 33 := by
          have h33 : n ≤ 33 := by omega
          exact_mod_cast h33
        have hge1 : (1 : ℝ) ≤ (n : ℝ) := by exact_mod_cast hge
        obtain ⟨b1, b2, ⟨vy, hvy, hvy1, hvy2⟩, ⟨y, hy, hy1, hy2⟩, bgc, bth, btt, bbr,
          btb, bms, bni, bbo, bbv⟩ := ih hge hle
        have hvyneg : vy < 0 := by linarith
        have hnr : -(100/3) ≤ vy := by linarith
        have ha : (0:ℝ) ≤ 49/50 * (n : ℝ) := by linarith
        have hb : 49/50 * (n : ℝ) ≤ 1617/50 := by linarith
        have hsq : vy * vy ≤ (49/50 * (n : ℝ)) * (49/50 * (n : ℝ)) := by
          nlinarith [mul_nonneg (by linarith : (0:ℝ) ≤ 49/50 * (n : ℝ) + vy)
            (by linarith : (0:ℝ) ≤ 49/50 * (n : ℝ) - vy)]
        have hc : (49/50 * (n : ℝ)) * (49/50 * (n : ℝ)) ≤ (1617/50) * (1617/50) :=
          mul_le_mul hb hb ha (by norm_num)
        have hsq2 : vy * vy ≤ 1046 := by linarith
        have hsqpos : 0 ≤ vy * vy := mul_self_nonneg vy
        have hvy3 : vy + (-9.8 + 0.05 * (vy * vy) / 1200) * 0.1 ≤
            -(39/40) * ((n : ℝ) + 1) := by nlinarith
        have hvy4 : -(49/50) * ((n : ℝ) + 1) ≤
            vy + (-9.8 + 0.05 * (vy * vy) / 1200) * 0.1 := by nlinarith
        have hair : hFlat 0 0 + 0.8 <
            y + (vy + (-9.8 + 0.05 * (vy * vy) / 1200) * 0.1) * 0.1 := by
          simp only [hFlat]
          nlinarith
        have hstep := update_falling (fallState n) 0.1 y vy hFlat hFlat 0
          b1 b2 hvy hvyneg hnr hy bth btt bbr btb bgc bms bbo bbv hair
        obtain ⟨d1, d2, d3, d4, d5, d6, d7, d8, d9, d10, d11, d12, d13⟩ := hstep
        have hcast : ((n + 1 : ℕ) : ℝ) = (n : ℝ) + 1 := by push_cast; ring
        refine ⟨d1, d2,
          ⟨vy + (-9.8 + 0.05 * (vy * vy) / 1200) * 0.1, d3, ?_, ?_⟩,
          ⟨y + (vy + (-9.8 + 0.05 * (vy * vy) / 1200) * 0.1) * 0.1, d4, ?_, ?_⟩,
          d5, d6, d8, d7, d9, d10, ?_, d12, d13⟩
        · rw [hcast]; exact hvy3
        · rw [hcast]; exact hvy4
        · rw [hcast]; nlinarith
        · nlinarith
        · rw [d11, bni]

set_option maxHeartbeats 1600000 in
/-- **C1 (counterexample).** The spec's post-step speed-cap invariant fails:
`fallState 34` is reachable, `0.1` is a game-loop-valid time step, and one
further `update` returns a state whose speed in km/h exceeds
`maxSpeedKmh × (nitroActive ? nitroMultiplier : 1)` by more than 1 km/h.  The
code rescales the velocity before integrating the acceleration
(physics.js lines 176-181 vs 208), so gravity added after the rescale is
never capped in the returned state. -/
theorem claim_c1_speed_cap_counterexample :
    Reachable (fallState 34) ∧ ValidDt 0.1 ∧
    (update (fallState 34) 0.1 hFlat hFlat 0).1.maxSpeedKmh *
        (if (update (fallState 34) 0.1 hFlat hFlat 0).1.nitroActive = true
          then nitroMultiplier else 1) + 1 <
      3.6 * (update (fallState 34) 0.1 hFlat hFlat 0).1.velocity.length := by
  refine ⟨fallState_reachable 34, by norm_num [ValidDt], ?_⟩
  obtain ⟨b1, b2, ⟨vy, hvy, hvy1, hvy2⟩, ⟨y, hy, hy1, hy2⟩, bgc, bth, btt, bbr,
    btb, bms, bni, bbo, bbv⟩ := fall_chain 34 (by norm_num) (by norm_num)
  have hvyneg : vy < 0 := by linarith
  have hnr : -(100/3) ≤ vy := by linarith
  have hair : hFlat 0 0 + 0.8 <
      y + (vy + (-9.8 + 0.05 * (vy * vy) / 1200) * 0.1) * 0.1 := by
    simp only [hFlat]
    nlinarith [mul_self_nonneg vy]
  have hstep := update_falling (fallState 34) 0.1 y vy hFlat hFlat 0
    b1 b2 hvy hvyneg hnr hy bth btt bbr btb bgc bms bbo bbv hair
  obtain ⟨d1, d2, d3, d4, d5, d6, d7, d8, d9, d10, d11, d12, d13⟩ := hstep
  rw [d10, d3, d11, bni, if_neg (by simp)]
  have hprod : (0:ℝ) ≤ (vy + 1666/50) * (-vy) :=
    mul_nonneg (by linarith) (by linarith)
  have hub : vy * vy ≤ 1111 := by nlinarith
  have hvyle : vy + (-9.8 + 0.05 * (vy * vy) / 1200) * 0.1 ≤ 0 := by nlinarith
  have hlen : Vec3.length ⟨0, vy + (-9.8 + 0.05 * (vy * vy) / 1200) * 0.1, 0⟩ =
      -(vy + (-9.8 + 0.05 * (vy * vy) / 1200) * 0.1) := by
    unfold Vec3.length
    exact sqrt_lengthSq_vert _ hvyle
  rw [hlen]
  nlinarith

/-- **C1 (amended).** What the code actually enforces: at the point where the
rescale is applied (physics.js lines 176-181), on the pre-integration
velocity, the resulting speed in km/h is at most the cap whenever the cap is
positive.  The invariant holds where the rescale runs, not at the end of the
step. -/
theorem claim_c1_speed_cap_amended (v : Vec3) (maxKmh : ℝ) (h0 : 0 < maxKmh) :
    3.6 * (applySpeedLimit v (Real.sqrt v.lengthSq * 3.6) maxKmh).length ≤ maxKmh := by
  have hlen : Real.sqrt v.lengthSq = v.length := rfl
  unfold applySpeedLimit
  split_ifs with hcap
  · rw [hlen] at hcap
    rw [Vec3.length_smul, hlen]
    have hL : 0 < v.length := by nlinarith [Vec3.length_nonneg v]
    have hne : v.length ≠ 0 := ne_of_gt hL
    have hfac : 0 ≤ maxKmh / (v.length * 3.6) := by positivity
    rw [abs_of_nonneg hfac]
    have heq : 3.6 * (maxKmh / (v.length * 3.6) * v.length) = maxKmh := by
      field_simp
      ring
    rw [heq]
  · push_neg at hcap
    rw [hlen] at hcap
    unfold Vec3.length at hcap ⊢
    linarith

/-- Witness for the amended C1 bound at a concrete over-speed velocity. -/
theorem claim_c1_speed_cap_amended_witness :
    (0:ℝ) < 120 ∧
    3.6 * (applySpeedLimit ⟨0, 0, 40⟩
        (Real.sqrt (Vec3.lengthSq ⟨0, 0, 40⟩) * 3.6) 120).length ≤ 120 :=
  ⟨by norm_num, claim_c1_speed_cap_amended ⟨0, 0, 40⟩ 120 (by norm_num)⟩

/-! ## C2: braking threshold, sign opposition, and reverse-through-zero -/

/-- The heading vector is unit length under the dot product. -/
theorem fwdDir_dot_self (r : ℝ) : (fwdDir r).dot (fwdDir r) = 1 := by
  simp only [fwdDir, Vec3.dot, Vec3.mk_x, Vec3.mk_y, Vec3.mk_z]
  nlinarith [Real.sin_sq_add_cos_sq r]

/-- **C2 (amended).** The per-step braking contribution
(physics.js lines 108-117) behaves as specified: it is zero when the brake is
not engaged or when the velocity's forward component is at most 0.1 in
magnitude, and otherwise its forward component exactly opposes the sign of
the velocity's forward component with magnitude brake·brakingForce/mass.
(The across-steps monotone-decrease part of the claim is refuted separately:
no per-step clamp stops this opposing acceleration at zero.) -/
theorem claim_c2_braking_amended (b rot : ℝ) (v : Vec3) :
    (b ≤ 0 → brakingAcceleration b (fwdDir rot) v = Vec3.zero) ∧
    (|v.dot (fwdDir rot)| ≤ 0.1 → brakingAcceleration b (fwdDir rot) v = Vec3.zero) ∧
    (0 < b → 0.1 < v.dot (fwdDir rot) →
      (brakingAcceleration b (fwdDir rot) v).dot (fwdDir rot) =
        -(b * brakingForce / mass)) ∧
    (0 < b → v.dot (fwdDir rot) < -(0.1) →
      (brakingAcceleration b (fwdDir rot) v).dot (fwdDir rot) =
        b * brakingForce / mass) := by
  refine ⟨?_, ?_, ?_, ?_⟩
  · intro h
    simp only [brakingAcceleration]
    rw [if_neg (not_lt.mpr h)]
  · intro h
    simp only [brakingAcceleration]
    by_cases hb : 0 < b
    · rw [if_pos hb, if_neg (not_lt.mpr h)]
    · rw [if_neg hb]
  · intro hb hf
    simp only [brakingAcceleration]
    rw [if_pos hb, if_pos (by rw [abs_of_pos (by linarith)]; exact hf)]
    rw [Vec3.smul_dot, Vec3.smul_dot, fwdDir_dot_self,
      Real.sign_of_pos (by linarith : (0:ℝ) < v.dot (fwdDir rot))]
    ring
  · intro hb hf
    simp only [brakingAcceleration]
    rw [if_pos hb, if_pos (by rw [abs_of_neg (by linarith)]; linarith)]
    rw [Vec3.smul_dot, Vec3.smul_dot, fwdDir_dot_self,
      Real.sign_of_neg (by linarith : v.dot (fwdDir rot) < 0)]
    ring

/-- Witness for the amended C2 at full brake, heading 0, forward speed 1:
the braking acceleration opposes the forward motion with the exact
brake·brakingForce/mass magnitude. -/
theorem claim_c2_braking_amended_witness :
    (0:ℝ) < 1 ∧ (0.1:ℝ) < Vec3.dot ⟨0, 0, 1⟩ (fwdDir 0) ∧
    (brakingAcceleration 1 (fwdDir 0) ⟨0, 0, 1⟩).dot (fwdDir 0) =
      -(1 * brakingForce / mass) := by
  have hdot : Vec3.dot ⟨0, 0, 1⟩ (fwdDir 0) = 1 := by
    simp [Vec3.dot, fwdDir, Real.sin_zero, Real.cos_zero]
  exact ⟨by norm_num, by rw [hdot]; norm_num,
    (claim_c2_braking_amended 1 0 ⟨0, 0, 1⟩).2.2.1 (by norm_num)
      (by rw [hdot]; norm_num)⟩

/-- Basic record facts about the brake-test state. -/
theorem brakeTestState_facts :
    brakeTestState.rotation = 0 ∧ brakeTestState.velocity = ⟨0, 0, 0.11⟩ ∧
    brakeTestState.position = ⟨0, 0.8, 0⟩ ∧ brakeTestState.brake = 1 ∧
    brakeTestState.targetBrake = 1 ∧ brakeTestState.throttle = 0 ∧
    brakeTestState.targetThrottle = 0 ∧ brakeTestState.groundContact = true ∧
    brakeTestState.maxSpeedKmh = 120 ∧ brakeTestState.bounce = 0 ∧
    brakeTestState.bounceVelocity = 0 :=
  ⟨rfl, rfl, rfl, rfl, rfl, rfl, rfl, rfl, rfl, rfl, rfl⟩

/-- The smoothed brake is exactly 1 when brake and target are both 1. -/
theorem smoothedBrake_one (s : TruckState) (dt : ℝ)
    (hbr : s.brake = 1) (htb : s.targetBrake = 1) :
    smoothedBrake s dt = 1 := by
  unfold smoothedBrake
  rw [hbr, htb]
  ring

/-- The heading at rotation 0 is the world z axis. -/
theorem fwdDir_zero : fwdDir 0 = ⟨0, 0, 1⟩ := by
  unfold fwdDir
  rw [Real.sin_zero, Real.cos_zero]

theorem lengthSq_brakeTest : Vec3.lengthSq ⟨0, 0, 0.11⟩ = 0.0121 := by
  simp only [Vec3.lengthSq, Vec3.mk_x, Vec3.mk_y, Vec3.mk_z]
  norm_num

theorem sqrt_lengthSq_brakeTest : Real.sqrt (Vec3.lengthSq ⟨0, 0, 0.11⟩) = 0.11 := by
  rw [lengthSq_brakeTest, show (0.0121:ℝ) = 0.11 ^ 2 by norm_num,
    Real.sqrt_sq (by norm_num)]

theorem length_brakeTest : Vec3.length ⟨0, 0, 0.11⟩ = 0.11 :=
  sqrt_lengthSq_brakeTest

/-- Braking contribution at full brake against slow forward motion along z. -/
theorem brakingAcceleration_brakeTest :
    brakingAcceleration 1 (fwdDir 0) ⟨0, 0, 0.11⟩ = ⟨0, 0, -15⟩ := by
  rw [fwdDir_zero]
  have hdot : Vec3.dot ⟨0, 0, 0.11⟩ ⟨0, 0, 1⟩ = 0.11 := by
    simp only [Vec3.dot, Vec3.mk_x, Vec3.mk_y, Vec3.mk_z]
    norm_num
  simp only [brakingAcceleration, hdot]
  rw [if_pos (by norm_num), if_pos (by rw [abs_of_pos (by norm_num)]; norm_num)]
  rw [Real.sign_of_pos (by norm_num : (0:ℝ) < 0.11)]
  simp only [Vec3.smul, Vec3.mk.injEq, brakingForce, mass]
  norm_num

/-- The lateral velocity of the brake-test state is zero: it moves along its
heading. -/
theorem lateralVelocityVectorOf_brakeTest :
    lateralVelocityVectorOf brakeTestState = ⟨0, 0, 0⟩ := by
  unfold lateralVelocityVectorOf
  have hrot : brakeTestState.rotation = 0 := rfl
  have hv : brakeTestState.velocity = ⟨0, 0, 0.11⟩ := rfl
  rw [hrot, hv, fwdDir_zero]
  simp only [Vec3.dot, Vec3.smul, Vec3.sub, Vec3.mk_x, Vec3.mk_y, Vec3.mk_z,
    Vec3.mk.injEq]
  norm_num

/-- Drag contribution of the brake-test state. -/
theorem dragAcceleration_brakeTest :
    dragAcceleration (Vec3.lengthSq ⟨0, 0, 0.11⟩) ⟨0, 0, 0.11⟩ =
      ⟨0, 0, -(121/240000000)⟩ := by
  unfold dragAcceleration
  rw [if_pos (by rw [lengthSq_brakeTest]; norm_num)]
  unfold Vec3.normalize
  rw [if_neg (by rw [length_brakeTest]; norm_num), length_brakeTest,
    lengthSq_brakeTest]
  simp only [Vec3.smul, Vec3.neg, Vec3.mk_x, Vec3.mk_y, Vec3.mk_z, Vec3.mk.injEq,
    dragCoefficient, mass]
  norm_num

/-- Rolling-resistance contribution of the brake-test state. -/
theorem rollingResistanceAcceleration_brakeTest :
    rollingResistanceAcceleration true (Real.sqrt (Vec3.lengthSq ⟨0, 0, 0.11⟩))
      (Vec3.lengthSq ⟨0, 0, 0.11⟩) ⟨0, 0, 0.11⟩ = ⟨0, 0, -(98539/1000000)⟩ := by
  unfold rollingResistanceAcceleration
  rw [if_pos ⟨rfl, by rw [lengthSq_brakeTest]; norm_num⟩, sqrt_lengthSq_brakeTest]
  unfold Vec3.normalize
  rw [if_neg (by rw [length_brakeTest]; norm_num), length_brakeTest]
  rw [min_eq_right (by norm_num : (0.11:ℝ) / 10 ≤ 1.0)]
  simp only [Vec3.smul, Vec3.neg, Vec3.mk_x, Vec3.mk_y, Vec3.mk_z, Vec3.mk.injEq,
    rollingResistance, mass]
  norm_num

/-- Accumulated acceleration of the brake-test state: gravity, full braking,
drag and rolling resistance. -/
theorem stepAccel_brakeTest :
    stepAccel brakeTestState (1/60) =
      ⟨0, -9.8, -(15 + 121/240000000 + 98539/1000000)⟩ := by
  unfold stepAccel
  have hrot : brakeTestState.rotation = 0 := rfl
  have hv : brakeTestState.velocity = ⟨0, 0, 0.11⟩ := rfl
  have hgc : brakeTestState.groundContact = true := rfl
  rw [smoothedThrottle_zero brakeTestState (1/60) rfl rfl,
    smoothedBrake_one brakeTestState (1/60) rfl rfl, hrot, hv, hgc,
    lateralVelocityVectorOf_brakeTest]
  rw [lateralFrictionAcceleration_still _ _ _ _ _ _
    (by rw [length_zero_vec]; norm_num)]
  rw [brakingAcceleration_brakeTest, dragAcceleration_brakeTest,
    rollingResistanceAcceleration_brakeTest, fwdDir_zero]
  simp only [Vec3.add, Vec3.smul, Vec3.zero, Vec3.mk_x, Vec3.mk_y, Vec3.mk_z,
    Vec3.mk.injEq]
  norm_num

/-- Velocity after rescale (a no-op at 0.396 km/h) and integration for the
brake-test state: braking has pushed the forward component through zero. -/
theorem integratedVelocity_brakeTest :
    integratedVelocity brakeTestState (1/60) =
      ⟨0, -9.8 * (1/60), 0.11 + -(15 + 121/240000000 + 98539/1000000) * (1/60)⟩ := by
  unfold integratedVelocity
  have hv : brakeTestState.velocity = ⟨0, 0, 0.11⟩ := rfl
  have hms : brakeTestState.maxSpeedKmh = 120 := rfl
  rw [stepAccel_brakeTest, hv, hms, sqrt_lengthSq_brakeTest]
  unfold applySpeedLimit
  rw [if_neg (by norm_num)]
  simp only [Vec3.add, Vec3.smul, Vec3.mk_x, Vec3.mk_y, Vec3.mk_z, Vec3.mk.injEq]
  norm_num

/-- The brake-test step stays far inside the play-area boundary. -/
theorem boundary_skip_brakeTest :
    ¬ boundaryHit brakeTestState.position
      ((integratedVelocity brakeTestState (1/60)).smul (1/60)) := by
  have hpos : brakeTestState.position = ⟨0, 0.8, 0⟩ := rfl
  rw [integratedVelocity_brakeTest, hpos]
  unfold boundaryHit boundaryLimit
  push_neg
  simp only [Vec3.add, Vec3.smul, Vec3.mk_x, Vec3.mk_y, Vec3.mk_z]
  constructor <;> rw [abs_le] <;> constructor <;> norm_num

/-- Length of a vector along the negative z axis. -/
theorem sqrt_lengthSq_axis_z (vz : ℝ) (h : vz ≤ 0) :
    Real.sqrt ((Vec3.mk 0 0 vz).lengthSq) = -vz := by
  have h1 : (Vec3.mk 0 0 vz).lengthSq = (-vz) ^ 2 := by
    simp only [Vec3.lengthSq, Vec3.mk_x, Vec3.mk_y, Vec3.mk_z]
    ring
  rw [h1, Real.sqrt_sq (by linarith)]

/-- **C2 (counterexample).** The across-steps part of the claim fails: from a
0.11 m/s forward roll with full brake held and no throttle, a single 60 fps
`update` leaves the forward (z) velocity negative — braking alone reverses
the truck through zero — and the speed increases instead of decreasing. -/
theorem claim_c2_braking_counterexample :
    brakeTestState.velocity = ⟨0, 0, 0.11⟩ ∧ brakeTestState.brake = 1 ∧
    brakeTestState.targetBrake = 1 ∧ brakeTestState.throttle = 0 ∧
    brakeTestState.targetThrottle = 0 ∧
    (update brakeTestState (1/60) hFlat hFlat 0).1.velocity.z < 0 ∧
    0.11 < (update brakeTestState (1/60) hFlat hFlat 0).1.velocity.length := by
  have hnohit := boundary_skip_brakeTest
  have hmov : movementVectorOf brakeTestState (1/60) =
      (integratedVelocity brakeTestState (1/60)).smul (1/60) := by
    unfold movementVectorOf applyBoundaryMovement
    rw [if_neg hnohit]
  have hbv : boundedVelocity brakeTestState (1/60) =
      integratedVelocity brakeTestState (1/60) := by
    unfold boundedVelocity applyBoundaryVelocity
    rw [if_neg hnohit]
  have hpos : brakeTestState.position = ⟨0, 0.8, 0⟩ := rfl
  have hbo : brakeTestState.bounce = 0 := rfl
  have hbvel : brakeTestState.bounceVelocity = 0 := rfl
  have hvz : (update brakeTestState (1/60) hFlat hFlat 0).1.velocity =
      ⟨0, 0, 0.11 + -(15 + 121/240000000 + 98539/1000000) * (1/60)⟩ := by
    simp only [update, hmov, hbv, integratedVelocity_brakeTest, hpos, hbo, hbvel,
      hFlat, Vec3.add, Vec3.smul, Vec3.mk_x, Vec3.mk_y, Vec3.mk_z]
    have hgr : (0.8:ℝ) + -9.8 * (1/60) * (1/60) < 0 + suspensionHeight + 0 * 0.7 := by
      rw [suspensionHeight]
      norm_num
    have hni : ¬ ((5:ℝ) < max 0 (-(-9.8 * (1/60)))) := by
      rw [show (-(-9.8 * (1/60)) : ℝ) = 9.8 * (1/60) by norm_num]
      rw [max_eq_right (by norm_num : (0:ℝ) ≤ 9.8 * (1/60))]
      norm_num
    have hmax0 : max (0:ℝ) (-9.8 * (1/60)) = 0 := max_eq_left (by norm_num)
    have hnf : ¬ ((0:ℝ) + suspensionHeight + 0 * 0.7 < 0 + 0.1) := by
      rw [suspensionHeight]
      norm_num
    simp only [hgr, hni, hmax0, if_true, if_false, true_and, and_false, false_and,
      if_pos, if_neg, Vec3.mk_x, Vec3.mk_y, Vec3.mk_z]
    rw [if_neg hnf]
  refine ⟨rfl, rfl, rfl, rfl, rfl, ?_, ?_⟩
  · rw [hvz]
    norm_num
  · rw [hvz]
    unfold Vec3.length
    rw [sqrt_lengthSq_axis_z _ (by norm_num)]
    norm_num

/-- **C9 (counterexample).** `reset` does not restore every mutable field to
its constructor default, even on a reachable state: `fallState 1` is reachable
and airborne (`groundContact = false`), after `reset` its `groundContact` is
still `false`, while the constructor default is `true`. -/
theorem claim_c9_reset_counterexample :
    Reachable (fallState 1) ∧
    (fallState 1).groundContact = false ∧
    (reset (fallState 1)).groundContact = false ∧
    initState.groundContact = true := by
  obtain ⟨-, -, -, -, hgc, -⟩ := fall_chain 1 (by norm_num) (by norm_num)
  exact ⟨fallState_reachable 1, hgc, hgc, rfl⟩

end VibeDriving
